import Mathlib

/-!
Verification of ext-lib: controller dispatch and service topology model.

A shallow embedding of the Go sources

* `controller/reply_controller.go` (the replier `Controller`, its preflight and its
  receive / dispatch / reply loop),
* `handler/controller.go` (the `handler.Controller` variant of the same operations, and the
  bind address `Url`),
* `handler/interface.go` (the wildcard handler `anyHandler` and `AnyRoute`),
* `config/service.go` (the `Service` topology model: `Lint`, `ValidateTypes`,
  `PrepareService`, the lookups and the setters),
* `proxy/service.go` (the method `Prepare` of a proxy),
* `categorizer/handler/snapshot.go` (the handler `GetSnapshot`),

followed by the properties established about them.

Conventions of the embedding.

* Go `error` values are `GoError`; a `nil` error is `none`.
* Methods with a pointer receiver that write to the receiver return the new receiver value
  next to their Go result (explicit state passing).
* A slice of pointers (`[]*service.Controller`, `[]*service.Extension`, ...) is embedded as the
  list of the records pointed to: every element is its own cell, i.e. the pointers held by
  one slice are taken to be pairwise distinct, as they are for a decoded configuration.
* Socket operations are not executed: their outcomes are inputs (`World`, `Inbound`) and the
  calls made are recorded in a trace of `Effect`s.
-/

namespace ExtLib

/-! ## Go errors -/

/-- A Go `error`: either a plain error carrying its message, or an error produced by
`fmt.Errorf` with the `%w` verb, which carries its formatted message and the wrapped cause. -/
inductive GoError where
  | new (msg : String)
  | wrap (msg : String) (cause : GoError)
  deriving DecidableEq, Repr

namespace GoError

/-- The method `Error()` of a Go error: its message. -/
def Error : GoError → String
  | new msg => msg
  | wrap msg _ => msg

/-- The function `errors.Unwrap`: the cause of a wrapping error. -/
def Unwrap : GoError → Option GoError
  | new _ => none
  | wrap _ cause => some cause

end GoError

/-- The call `fmt.Errorf(pre + "%w", err)`: the message is `pre` followed by the message of
`err`, and `err` is kept as the wrapped cause. -/
def Errorf_w (pre : String) (err : GoError) : GoError :=
  GoError.wrap (pre ++ err.Error) err

/-- The call `fmt.Errorf(pre + "%v", err)`: the message is `pre` followed by the message of
`err`; nothing is wrapped. -/
def Errorf_v (pre : String) (err : GoError) : GoError :=
  GoError.new (pre ++ err.Error)

/-- Substring containment on strings ("the message contains ..."). -/
def Contains (s sub : String) : Prop := sub.data <:+: s.data

instance instDecidableContains (s sub : String) : Decidable (Contains s sub) := by
  unfold Contains
  infer_instance

/-! ## Messages (package `message`) -/

/-- The value of a request or reply parameter. -/
inductive Value where
  | str (s : String)
  | uint (n : Nat)
  | bool (b : Bool)
  deriving DecidableEq, Repr

/-- The type `key_value.KeyValue`: a Go map keyed by strings, embedded as an association
list in which the first entry for a key is the one the map holds. Iteration over the map
follows the list (Go leaves the iteration order unspecified). -/
abbrev KeyValue (α : Type) := List (String × α)

/-- Modelled from the spec: `key_value.Empty`, the empty map. -/
def KeyValue.Empty {α : Type} : KeyValue α := []

/-- Modelled from the spec: method `Exist` of `key_value.KeyValue`, declared in a library that
is not among these sources: a "membership check that fails with a descriptive error" when
the key is absent, and returns `nil` when it is present. -/
def KeyValue.Exist {α : Type} (kv : KeyValue α) (name : String) : Option GoError :=
  if kv.any (fun entry => entry.1 == name) then none
  else some (GoError.new ("'" ++ name ++ "' not exists"))

/-- Modelled from the spec: method `Set` of `key_value.KeyValue`: assignment to a Go map,
which overwrites the value of a key already present and adds the key otherwise. -/
def KeyValue.Set {α : Type} : KeyValue α → String → α → KeyValue α
  | [], name, value => [(name, value)]
  | entry :: rest, name, value =>
      if entry.1 == name then (name, value) :: rest
      else entry :: KeyValue.Set rest name value

/-- The type `message.Request`: the command, its parameters and the public key of the
caller (attached by the transport, empty when absent). -/
structure Request where
  Command : String
  Parameters : KeyValue Value
  publicKey : String := ""
  deriving DecidableEq, Repr

/-- Method `SetPublicKey` of `message.Request`. -/
def Request.SetPublicKey (request : Request) (pubKey : String) : Request :=
  { request with publicKey := pubKey }

/-- The reply status `message.OK`. -/
def OK : String := "OK"

/-- The reply status `message.FAIL`. -/
def FAIL : String := "FAIL"

/-- The type `message.Reply`. -/
structure Reply where
  Status : String
  Message : String
  Parameters : KeyValue Value
  deriving DecidableEq, Repr

/-- Modelled from the spec: `message.Fail`, declared in package `message` which is not among
these sources. A reply of status `FAIL` carrying the given message and no parameters
("a human-readable message (set only on failure), and a parameter mapping (set only on
success)"). -/
def Fail (msg : String) : Reply :=
  { Status := FAIL, Message := msg, Parameters := [] }

/-- Method `IsOK` of `message.Reply`. -/
def Reply.IsOK (reply : Reply) : Bool := reply.Status == OK

/-! ## Routes (package `command`) -/

/-- An extension client socket (`remote.ClientSocket`), identified by the endpoint it was
created for. -/
structure ClientSocket where
  name : String
  port : Nat
  deriving DecidableEq, Repr

/-- The type `remote.Clients`: extension clients keyed by extension name. -/
abbrev Clients := KeyValue ClientSocket

/-- The type `command.HandleFunc`: a handler receives the request and the extension
clients of the controller (the logger carries no data and is left out). -/
abbrev HandleFunc := Request → Clients → Reply

/-- The type `command.Route`: a command identifier and its handler. -/
structure Route where
  Command : String
  handler : HandleFunc

/-- Method `Handle` of `command.Route`: run the handler. -/
def Route.Handle (route : Route) (request : Request) (extensions : Clients) : Reply :=
  route.handler request extensions

/-- Modelled from the spec: the command route table `command.Routes`, declared in package
`command` which is not among these sources. A table of (command, route) entries in
registration order. -/
structure Routes where
  entries : List (String × Route)

namespace Routes

/-- Modelled from the spec: `command.NewRoutes`, the empty table. -/
def NewRoutes : Routes := ⟨[]⟩

/-- Modelled from the spec: "`Exist(command)` is a pure membership check". -/
def Exist (routes : Routes) (command : String) : Bool :=
  routes.entries.any (fun entry => entry.1 == command)

/-- Modelled from the spec: "`Get(command)` fails with a not-found condition if absent";
otherwise it is the route registered for the command. -/
def Get (routes : Routes) (command : String) : Except GoError Route :=
  match routes.entries.find? (fun entry => entry.1 == command) with
  | some entry => Except.ok entry.2
  | none => Except.error (GoError.new ("route not found: " ++ command))

/-- Modelled from the spec: "`Add(command, handler)` fails if the command is already
registered"; otherwise the entry is appended. -/
def Add (routes : Routes) (command : String) (route : Route) : Except GoError Routes :=
  if routes.Exist command then
    Except.error (GoError.new ("route already registered: " ++ command))
  else
    Except.ok ⟨routes.entries ++ [(command, route)]⟩

end Routes

/-- Modelled from the spec: the wildcard command `command.Any`, declared in package `command`
which is not among these sources. No proof depends on its value. -/
def Any : String := "*"

/-! ## Package `controller` (`controller/reply_controller.go`) -/

namespace configuration

/-- Modelled from the spec: the controller type `configuration.ReplierType`, declared in
package `configuration` which is not among these sources. No proof depends on its value. -/
def ReplierType : String := "Replier"

/-- The type `configuration.Instance`, as far as these sources use it. -/
structure Instance where
  Port : Nat
  deriving DecidableEq, Repr

/-- The type `configuration.Controller`, as far as these sources use it. -/
structure Controller where
  Name : String
  Instances : List Instance
  deriving DecidableEq, Repr

/-- The type `configuration.Extension`, as far as these sources use it. -/
structure Extension where
  Name : String
  Port : Nat
  deriving DecidableEq, Repr

end configuration

/-- A call made on the outside world by a running controller. -/
inductive Effect where
  /-- The call `remote.NewReq(name, port, logger)`. -/
  | NewReq (name : String) (port : Nat)
  /-- The call `socket.Bind(url)`. -/
  | Bind (url : String)
  /-- The call `socket.RecvMessageWithMetadata`. -/
  | Recv
  /-- The call `socket.SendMessage` with the serialised reply. -/
  | Send (reply : Reply)
  /-- The call `route.Handle(request, ...)` on the route registered under `command`. -/
  | Handle (command : String) (request : Request)
  /-- The call `logger.Warn`. -/
  | Warn (msg : String)
  deriving DecidableEq, Repr

/-- One result of `socket.RecvMessageWithMetadata`, together with the outcome that a
`socket.SendMessage` made while this result is processed will have. -/
inductive Inbound where
  /-- The receive call fails. -/
  | recvError (err : GoError) (sendErr : Option GoError)
  /-- The receive call delivers a raw message and, when present, the `pub_key` metadata. -/
  | message (msgRaw : List String) (pubKey : Option String) (sendErr : Option GoError)
  deriving DecidableEq, Repr

/-- The outcomes of the calls a controller makes on its libraries and sockets. -/
structure World where
  /-- The error returned by `remote.NewReq(name, port, logger)`, if any. -/
  NewReq : String → Nat → Option GoError
  /-- The error returned by `socket.Bind(url)`, if any. -/
  Bind : String → Option GoError
  /-- The function `message.ParseRequest`. -/
  ParseRequest : List String → Except GoError Request

/-- How a call of `Run` ends. -/
inductive Outcome where
  /-- The method `Run` returns this error. -/
  | returned (err : GoError)
  /-- A run-time panic. -/
  | panicked (msg : String)
  /-- The method `Run` waits in the receive call: the inbound results are used up. -/
  | blocked
  deriving DecidableEq, Repr

namespace controller

/-- The type `Controller` (the socket and the logger are represented by `Effect`s). -/
structure Controller where
  config : Option configuration.Controller
  controllerType : String
  routes : Routes
  requiredExtensions : List String
  extensionConfigs : KeyValue configuration.Extension
  extensions : Clients

namespace Controller

/-- Method `AddConfig`. -/
def AddConfig (c : Controller) (controller : configuration.Controller) : Controller :=
  { c with config := some controller }

/-- Method `AddExtensionConfig`. -/
def AddExtensionConfig (c : Controller) (extension : configuration.Extension) : Controller :=
  { c with extensionConfigs := KeyValue.Set c.extensionConfigs extension.Name extension }

/-- Method `RequireExtension`. -/
def RequireExtension (c : Controller) (name : String) : Controller :=
  { c with requiredExtensions := c.requiredExtensions ++ [name] }

/-- Method `RequiredExtensions`. -/
def RequiredExtensions (c : Controller) : List String := c.requiredExtensions

/-- Method `isReply`. -/
def isReply (c : Controller) : Bool := c.controllerType == configuration.ReplierType

/-- Method `reply`: the effects made and the error returned. `sendErr` is the outcome of
`socket.SendMessage`, should it be called. The format string of the error has no operand
for its `%w`, which `fmt` prints as `%!w(MISSING)`; nothing is wrapped. -/
def reply (c : Controller) (message : Reply) (sendErr : Option GoError) :
    List Effect × Option GoError :=
  if !c.isReply then
    ([], none)
  else
    match sendErr with
    | some err =>
        ([Effect.Send message],
          some (GoError.new ("recv error replying error %!w(MISSING)" ++ err.Error)))
    | none => ([Effect.Send message], none)

/-- Method `replyError`. -/
def replyError (c : Controller) (err : GoError) (sendErr : Option GoError) :
    List Effect × Option GoError :=
  c.reply (Fail err.Error) sendErr

/-- Method `AddRoute`, over an arbitrary implementation `add` of the route table method `Add`:
the new route table and the error returned. -/
def AddRouteWith (add : Routes → String → Route → Except GoError Routes)
    (c : Controller) (route : Route) : Controller × Option GoError :=
  if c.routes.Exist route.Command then
    (c, none)
  else
    match add c.routes route.Command route with
    | Except.error err => (c, some (Errorf_w "failed to add a route: " err))
    | Except.ok routes => ({ c with routes := routes }, none)

/-- Method `AddRoute`. -/
def AddRoute (c : Controller) (route : Route) : Controller × Option GoError :=
  AddRouteWith Routes.Add c route

/-- The loop of `extensionsAdded` over the required names. -/
def extensionsAddedLoop (extensionConfigs : KeyValue configuration.Extension) :
    List String → Option GoError
  | [] => none
  | name :: rest =>
      match KeyValue.Exist extensionConfigs name with
      | some _ =>
          some (GoError.new ("required '" ++ name ++
            "' extension. but it wasn't added to the controller (does it exist in seascape.yml?)"))
      | none => extensionsAddedLoop extensionConfigs rest

/-- Method `extensionsAdded`. -/
def extensionsAdded (c : Controller) : Option GoError :=
  extensionsAddedLoop c.extensionConfigs c.requiredExtensions

/-- Method `ControllerType`. -/
def ControllerType (c : Controller) : String := c.controllerType

/-- The loop of `initExtensionClients` over the extension configurations: the calls made,
the extension clients afterwards and the error returned. -/
def initExtensionClientsLoop (w : World) :
    List (String × configuration.Extension) → Clients → List Effect × Clients × Option GoError
  | [], extensions => ([], extensions, none)
  | entry :: rest, extensions =>
      let extensionConfig := entry.2
      match w.NewReq extensionConfig.Name extensionConfig.Port with
      | some err =>
          ([Effect.NewReq extensionConfig.Name extensionConfig.Port], extensions,
            some (Errorf_w "failed to create a request client: " err))
      | none =>
          let extension : ClientSocket := ⟨extensionConfig.Name, extensionConfig.Port⟩
          let (trace, extensions1, err) :=
            initExtensionClientsLoop w rest
              (KeyValue.Set extensions extensionConfig.Name extension)
          (Effect.NewReq extensionConfig.Name extensionConfig.Port :: trace, extensions1, err)

/-- Method `initExtensionClients`. -/
def initExtensionClients (c : Controller) (w : World) :
    List Effect × Controller × Option GoError :=
  let (trace, extensions, err) := initExtensionClientsLoop w c.extensionConfigs c.extensions
  (trace, { c with extensions := extensions }, err)

end Controller

/-- Function `controllerUrl`. -/
def controllerUrl (port : Nat) : String := "tcp://*:" ++ toString port

/-- The result of the dispatch step: the route whose handler was invoked, if any, and the
reply computed. -/
structure Dispatched where
  invoked : Option Route
  reply : Reply

/-- The dispatch step of `Run` (the route lookup and the computation of the reply, between
the parsing of the request and the sending of the reply). -/
def dispatch (c : Controller) (request : Request) : Dispatched :=
  let found : Except GoError Route :=
    if c.routes.Exist request.Command then
      c.routes.Get request.Command
    else if c.routes.Exist Any then
      c.routes.Get Any
    else
      Except.error (GoError.new ("handler not found for command: " ++ request.Command))
  match found with
  | Except.error err =>
      { invoked := none,
        reply := Fail ("route get " ++ request.Command ++ " failed: " ++ err.Error) }
  | Except.ok route =>
      { invoked := some route, reply := route.Handle request c.extensions }

/-- The `for` loop of `Run`, over the results of the successive receive calls: the calls
made and how the loop ends. -/
def loop (c : Controller) (w : World) : List Inbound → List Effect × Outcome
  | [] => ([Effect.Recv], Outcome.blocked)
  | Inbound.recvError err sendErr :: _ =>
      let newErr := Errorf_w "socket.recvMessageWithMetadata: " err
      match c.replyError newErr sendErr with
      | (trace, some err1) => (Effect.Recv :: trace, Outcome.returned err1)
      | (trace, none) => (Effect.Recv :: trace, Outcome.returned newErr)
  | Inbound.message msgRaw pubKey sendErr :: rest =>
      match w.ParseRequest msgRaw with
      | Except.error err =>
          let newErr := Errorf_w "message.ParseRequest: " err
          match c.replyError newErr sendErr with
          | (trace, some err1) => (Effect.Recv :: trace, Outcome.returned err1)
          | (trace, none) =>
              let (trace1, outcome) := loop c w rest
              (Effect.Recv :: trace ++ trace1, outcome)
      | Except.ok parsed =>
          let request :=
            match pubKey with
            | some key => parsed.SetPublicKey key
            | none => parsed
          let d := dispatch c request
          let handled :=
            match d.invoked with
            | some route => [Effect.Handle route.Command request]
            | none => []
          match c.reply d.reply sendErr with
          | (trace, some err1) => (Effect.Recv :: handled ++ trace, Outcome.returned err1)
          | (trace, none) =>
              let warned :=
                if !d.reply.IsOK && !c.isReply then [Effect.Warn "handler replied an error"]
                else []
              let (trace1, outcome) := loop c w rest
              (Effect.Recv :: handled ++ trace ++ warned ++ trace1, outcome)

/-- The result of `Run`: the calls made, in order, and how the run ends. -/
structure RunResult where
  trace : List Effect
  outcome : Outcome
  deriving DecidableEq, Repr

/-- Method `Run` of `Controller`, for the given outcomes of the outside calls and the given
results of the successive receive calls. -/
def Run (c : Controller) (w : World) (inbound : List Inbound) : RunResult :=
  match c.extensionsAdded with
  | some err => ⟨[], Outcome.returned (Errorf_w "extensionsAdded: " err)⟩
  | none =>
      match c.initExtensionClients w with
      | (trace, _, some err) =>
          ⟨trace, Outcome.returned (Errorf_w "initExtensionClients: " err)⟩
      | (trace, c1, none) =>
          let warned :=
            [Effect.Warn "config.Instances[0] is hardcoded. Create multiple instances",
             Effect.Warn "todo"]
          match c1.config with
          | none => ⟨trace ++ warned, Outcome.panicked "nil pointer dereference"⟩
          | some config =>
              match config.Instances with
              | [] => ⟨trace ++ warned, Outcome.panicked "index out of range [0] with length 0"⟩
              | instance0 :: _ =>
                  let url := controllerUrl instance0.Port
                  match w.Bind url with
                  | some err =>
                      ⟨trace ++ warned ++ [Effect.Bind url],
                        Outcome.returned (Errorf_w
                          ("socket.bind on tcp protocol for " ++ config.Name ++ " at url " ++
                            toString instance0.Port ++ ": ") err)⟩
                  | none =>
                      let (trace1, outcome) := loop c1 w inbound
                      ⟨trace ++ warned ++ [Effect.Bind url] ++ trace1, outcome⟩

end controller

/-! ## Package `config/service`: the records of the topology model -/

namespace service

/-- The controller type `service.UnknownType`. -/
def UnknownType : String := ""

/-- The controller type `service.SyncReplierType`. -/
def SyncReplierType : String := "SyncReplier"

/-- The controller type `service.PusherType`. -/
def PusherType : String := "Pusher"

/-- The controller type `service.ReplierType`. -/
def ReplierType : String := "Replier"

/-- Modelled from the spec: the "known enumeration" of controller types; the constants are
declared in package `config/service`, which is not among these sources, and no proof depends
on their values. -/
def knownControllerTypes : List String := [SyncReplierType, PusherType, ReplierType]

/-- Modelled from the spec: `service.ValidateControllerType`, declared in package
`config/service` which is not among these sources: it fails exactly for a type "outside the
known enumeration". -/
def ValidateControllerType (t : String) : Option GoError :=
  if t ∈ knownControllerTypes then none
  else some (GoError.new ("'" ++ t ++ "' is not valid handler type"))

/-- The type `service.Instance`: the fields these sources use; the remaining fields of the
declaration, which is not among these sources, are kept together in `Rest`. -/
structure Instance where
  Port : Nat
  Id : String
  ControllerCategory : String
  Rest : KeyValue Value := []
  deriving DecidableEq, Repr

/-- The type `service.Controller`: the fields these sources use (`Type_` is the Go field
`Type`), and the remaining ones in `Rest`. -/
structure Controller where
  Type_ : String
  Category : String
  Instances : List Instance
  Rest : KeyValue Value := []
  deriving DecidableEq, Repr

/-- The type `service.Extension`: the fields these sources use, and the remaining ones
in `Rest`. -/
structure Extension where
  Url : String
  Port : Nat
  Rest : KeyValue Value := []
  deriving DecidableEq, Repr

/-- The type `service.Proxy`: the field these sources use, and the remaining ones in `Rest`. -/
structure Proxy where
  Url : String
  Rest : KeyValue Value := []
  deriving DecidableEq, Repr

end service

/-- The type `pipeline.Pipeline`; these sources only store it. -/
structure Pipeline where
  Rest : KeyValue Value := []
  deriving DecidableEq, Repr

/-! ## Package `config` (`config/service.go`) -/

/-- The result of a Go function returning `(value, error)` that may also panic. -/
inductive Result (α : Type) where
  | ok (value : α)
  | err (e : GoError)
  | panic (msg : String)
  deriving DecidableEq, Repr

/-- A Go slice: its elements (as many as its length) and its capacity. -/
structure Slice (α : Type) where
  elems : List α
  cap : Nat
  deriving DecidableEq, Repr

/-- The call `make([]T, 0, cap)`: a slice of length zero. -/
def Slice.make0 {α : Type} (cap : Nat) : Slice α := ⟨[], cap⟩

/-- The built-in `len` on a slice. -/
def Slice.len {α : Type} (s : Slice α) : Nat := s.elems.length

/-- The index assignment `s[i] = v`: it panics (`none`) unless `i < len(s)`, whatever
the capacity. -/
def Slice.setIndex {α : Type} (s : Slice α) (i : Nat) (v : α) : Option (Slice α) :=
  if i < s.len then some { s with elems := s.elems.set i v } else none

/-- The cell of the first element satisfying `p`, as an index into the list: the pointer
that a `for ... range` search over a slice of pointers returns. -/
def firstCell {α : Type} (p : α → Bool) : List α → Option Nat
  | [] => none
  | x :: xs => if p x then some 0 else (firstCell p xs).map (fun i => i + 1)

namespace config

/-- The service type `config.ProxyType`. -/
def ProxyType : String := "Proxy"

/-- The service type `config.ExtensionType`. -/
def ExtensionType : String := "Extension"

/-- The service type `config.IndependentType`. -/
def IndependentType : String := "Independent"

/-- Modelled from the spec: the "known enumeration" of service types; the constants are
declared in a file of package `config` that is not among these sources, and no proof depends
on their values. -/
def knownTypes : List String := [ProxyType, ExtensionType, IndependentType]

/-- Modelled from the spec: `config.ValidateServiceType`, declared in a file of package
`config` that is not among these sources: it fails exactly for a type "outside the known
enumeration". -/
def ValidateServiceType (t : String) : Option GoError :=
  if t ∈ knownTypes then none
  else some (GoError.new ("'" ++ t ++ "' is not valid service type"))

/-- The type `Service` (`Type_` is the Go field `Type`; the field `engine` is not used by
the operations embedded here). -/
structure Service where
  Type_ : String
  Url : String
  Id : String
  Controllers : List service.Controller
  Proxies : List service.Proxy
  Extensions : List service.Extension
  Pipelines : List Pipeline
  deriving DecidableEq, Repr

/-- The call `fmt.Errorf` of `Lint`, with its five `%s` operands in order. -/
def LintErrorf (a1 a2 a3 a4 a5 : String) : GoError :=
  GoError.new ("invalid name for handler instance. " ++
    "In service instance '" ++ a1 ++ "', handler '" ++ a2 ++ "', instance '" ++ a3 ++ "'. " ++
    "the '" ++ a4 ++ "' name in the handler instance should be '" ++ a5 ++ "'")

/-- The inner loop of `Lint`, over the instances of one controller of category `category`
in the service `id`: the instances afterwards and the error returned. An instance that
declares no category receives `category`; the loop returns at the first instance that
declares another one, and the instances before it keep what they received. -/
def LintInstances (id category : String) :
    List service.Instance → List service.Instance × Option GoError
  | [] => ([], none)
  | inst :: rest =>
      if inst.ControllerCategory.length > 0 then
        if inst.ControllerCategory != category then
          (inst :: rest, some (LintErrorf id category inst.Id inst.ControllerCategory category))
        else
          let (rest1, err) := LintInstances id category rest
          (inst :: rest1, err)
      else
        let (rest1, err) := LintInstances id category rest
        ({ inst with ControllerCategory := category } :: rest1, err)

/-- The outer loop of `Lint`, over the controllers of the service `id`. -/
def LintControllers (id : String) :
    List service.Controller → List service.Controller × Option GoError
  | [] => ([], none)
  | c :: rest =>
      match LintInstances id c.Category c.Instances with
      | (instances, some err) => ({ c with Instances := instances } :: rest, some err)
      | (instances, none) =>
          let (rest1, err) := LintControllers id rest
          ({ c with Instances := instances } :: rest1, err)

namespace Service

/-- Method `Lint`: the service afterwards and the error returned. -/
def Lint (s : Service) : Service × Option GoError :=
  let (controllers, err) := LintControllers s.Id s.Controllers
  ({ s with Controllers := controllers }, err)

/-- The loop of `ValidateTypes` over the controllers. -/
def ValidateControllerTypes : List service.Controller → Option GoError
  | [] => none
  | c :: rest =>
      match service.ValidateControllerType c.Type_ with
      | some err => some (Errorf_v "handler.ValidateControllerType: " err)
      | none => ValidateControllerTypes rest

/-- Method `ValidateTypes`. -/
def ValidateTypes (s : Service) : Option GoError :=
  match ValidateServiceType s.Type_ with
  | some err => some (Errorf_v "identity.ValidateServiceType: " err)
  | none => ValidateControllerTypes s.Controllers

/-- Method `PrepareService`: the service afterwards and the error returned. -/
def PrepareService (s : Service) : Service × Option GoError :=
  match s.ValidateTypes with
  | some err => (s, some (Errorf_w "service.ValidateTypes: " err))
  | none =>
      match s.Lint with
      | (s1, some err) => (s1, some (Errorf_w "service.Lint: " err))
      | (s1, none) => (s1, none)

/-- The loop of `GetController` over the controllers. -/
def GetControllerLoop (name : String) : List service.Controller → Option service.Controller
  | [] => none
  | c :: rest => if c.Category == name then some c else GetControllerLoop name rest

/-- Method `GetController`. -/
def GetController (s : Service) (name : String) : Except GoError service.Controller :=
  match GetControllerLoop name s.Controllers with
  | some c => Except.ok c
  | none =>
      Except.error (GoError.new
        ("'" ++ name ++ "' handler was not found in '" ++ s.Url ++ "' service's config"))

/-- The loop of `GetControllers`: the slice `controllers` and the counter `count` after
the loop, or `none` when an index assignment panics. -/
def GetControllersLoop (name : String) :
    List service.Controller → Slice service.Controller → Nat →
      Option (Slice service.Controller × Nat)
  | [], controllers, count => some (controllers, count)
  | c :: rest, controllers, count =>
      if c.Category == name then
        match controllers.setIndex count c with
        | none => none
        | some controllers1 => GetControllersLoop name rest controllers1 (count + 1)
      else
        GetControllersLoop name rest controllers count

/-- Method `GetControllers`. -/
def GetControllers (s : Service) (name : String) : Result (List service.Controller) :=
  match GetControllersLoop name s.Controllers (Slice.make0 s.Controllers.length) 0 with
  | none => Result.panic "index out of range"
  | some (controllers, _) =>
      if controllers.len == 0 then
        Result.err (GoError.new ("no '" ++ name ++ "' controlelr config"))
      else
        Result.ok controllers.elems

/-- Method `GetFirstController`. -/
def GetFirstController (s : Service) : Except GoError service.Controller :=
  match s.Controllers with
  | [] =>
      Except.error (GoError.new
        ("service '" ++ s.Url ++ "' doesn't have any controllers in yaml file"))
  | controller :: _ => Except.ok controller

/-- The pointer returned by `GetExtension`, as the cell of `s.Extensions` it points to;
`none` is the `nil` pointer. -/
def GetExtensionCell (s : Service) (url : String) : Option Nat :=
  firstCell (fun e => e.Url == url) s.Extensions

/-- Method `GetExtension`: the extension that the returned pointer points to. -/
def GetExtension (s : Service) (url : String) : Option service.Extension :=
  match s.GetExtensionCell url with
  | some cell => s.Extensions[cell]?
  | none => none

/-- The pointer returned by `GetProxy`, as the cell of `s.Proxies` it points to; `none` is
the `nil` pointer. -/
def GetProxyCell (s : Service) (url : String) : Option Nat :=
  firstCell (fun p => p.Url == url) s.Proxies

/-- Method `GetProxy`: the proxy that the returned pointer points to. -/
def GetProxy (s : Service) (url : String) : Option service.Proxy :=
  match s.GetProxyCell url with
  | some cell => s.Proxies[cell]?
  | none => none

/-- Method `SetProxy`: append when `GetProxy` returns `nil`, and otherwise the assignment
`*existing = *proxy` to the cell found. -/
def SetProxy (s : Service) (proxy : service.Proxy) : Service :=
  match s.GetProxyCell proxy.Url with
  | none => { s with Proxies := s.Proxies ++ [proxy] }
  | some existing => { s with Proxies := s.Proxies.set existing proxy }

/-- Method `SetExtension`: append when `GetExtension` returns `nil`, and otherwise the
assignment `*existing = *extension` to the cell found. -/
def SetExtension (s : Service) (extension : service.Extension) : Service :=
  match s.GetExtensionCell extension.Url with
  | none => { s with Extensions := s.Extensions ++ [extension] }
  | some existing => { s with Extensions := s.Extensions.set existing extension }

/-- Method `SetController`. -/
def SetController (s : Service) (controller : service.Controller) : Service :=
  { s with Controllers := s.Controllers ++ [controller] }

/-- Method `SetPipeline`. -/
def SetPipeline (s : Service) (pipeline : Pipeline) : Service :=
  { s with Pipelines := s.Pipelines ++ [pipeline] }

/-- Method `HasProxy`. -/
def HasProxy (s : Service) : Bool := s.Proxies.length > 0

end Service

end config

/-! ## Package `handler` (`handler/controller.go`) -/

namespace handler

/-- The type `Controller` of package `handler` (the socket and the logger are represented
by `Effect`s). -/
structure Controller where
  config : Option service.Controller
  serviceUrl : String
  controllerType : String
  routes : Routes
  requiredExtensions : List String
  extensionConfigs : KeyValue service.Extension
  extensions : Clients

namespace Controller

/-- Method `AddConfig`. -/
def AddConfig (c : Controller) (controller : service.Controller) (serviceUrl : String) :
    Controller :=
  { c with config := some controller, serviceUrl := serviceUrl }

/-- Method `AddExtensionConfig`. -/
def AddExtensionConfig (c : Controller) (extension : service.Extension) : Controller :=
  { c with extensionConfigs := KeyValue.Set c.extensionConfigs extension.Url extension }

/-- Method `RequireExtension`. -/
def RequireExtension (c : Controller) (name : String) : Controller :=
  { c with requiredExtensions := c.requiredExtensions ++ [name] }

/-- Method `RequiredExtensions`. -/
def RequiredExtensions (c : Controller) : List String := c.requiredExtensions

/-- Method `isReply`. -/
def isReply (c : Controller) : Bool := c.controllerType == service.SyncReplierType

/-- Method `AddRoute`, over an arbitrary implementation `add` of the route table method `Add`:
the controller afterwards and the error returned. -/
def AddRouteWith (add : Routes → String → Route → Except GoError Routes)
    (c : Controller) (route : Route) : Controller × Option GoError :=
  if c.routes.Exist route.Command then
    (c, none)
  else
    match add c.routes route.Command route with
    | Except.error err => (c, some (Errorf_w "failed to add a route: " err))
    | Except.ok routes => ({ c with routes := routes }, none)

/-- Method `AddRoute`. -/
def AddRoute (c : Controller) (route : Route) : Controller × Option GoError :=
  AddRouteWith Routes.Add c route

/-- The loop of `extensionsAdded` over the required names. -/
def extensionsAddedLoop (extensionConfigs : KeyValue service.Extension) :
    List String → Option GoError
  | [] => none
  | name :: rest =>
      match KeyValue.Exist extensionConfigs name with
      | some _ =>
          some (GoError.new ("required '" ++ name ++
            "' extension. but it wasn't added to the handler (does it exist in config.yml?)"))
      | none => extensionsAddedLoop extensionConfigs rest

/-- Method `extensionsAdded`. -/
def extensionsAdded (c : Controller) : Option GoError :=
  extensionsAddedLoop c.extensionConfigs c.requiredExtensions

/-- Method `ControllerType`. -/
def ControllerType (c : Controller) : String := c.controllerType

/-- Method `reply`: the effects made on the given socket and the error returned. `sendErr` is
the outcome of `socket.SendMessage`, should it be called. The format string of the error has
no operand for its `%w`, which `fmt` prints as `%!w(MISSING)`; nothing is wrapped. -/
def reply (c : Controller) (message : Reply) (sendErr : Option GoError) :
    List Effect × Option GoError :=
  if !c.isReply then
    ([], none)
  else
    match sendErr with
    | some err =>
        ([Effect.Send message],
          some (GoError.new ("recv error replying error %!w(MISSING)" ++ err.Error)))
    | none => ([Effect.Send message], none)

/-- Method `replyError`; the method `Fail` of the empty `message.Request` is `Fail`. -/
def replyError (c : Controller) (err : GoError) (sendErr : Option GoError) :
    List Effect × Option GoError :=
  c.reply (Fail err.Error) sendErr

end Controller

/-- Function `Url`: the address a controller binds to. -/
def Url (name : String) (port : Nat) : String :=
  if port == 0 then
    "inproc://" ++ name
  else
    "tcp://*:" ++ toString port

/-- Modelled from the spec: method `Ok` of `message.Request`, declared in a library that is
not among these sources: a reply of status `OK` carrying the given parameters and no message
("a parameter mapping (set only on success)"). -/
def Ok (_request : Request) (parameters : KeyValue Value) : Reply :=
  { Status := OK, Message := "", Parameters := parameters }

/-- The handler `anyHandler` (`handler/interface.go`): it ignores the logger and the extension
clients, and replies `OK` with the command of the request under the key `command`. -/
def anyHandler : HandleFunc := fun request _ =>
  let replyParameters : KeyValue Value := KeyValue.Empty
  let replyParameters := KeyValue.Set replyParameters "command" (Value.str request.Command)
  Ok request replyParameters

/-- Modelled from the spec: `command.NewRoute`, the route made of a command and a handler. -/
def NewRoute (command : String) (handler : HandleFunc) : Route := ⟨command, handler⟩

/-- Function `AnyRoute`, on a source controller of type `handler.Controller`: the controller
afterwards and the error returned. -/
def AnyRoute (sourceController : Controller) : Controller × Option GoError :=
  let route := NewRoute Any anyHandler
  match sourceController.AddRoute route with
  | (c, some err) => (c, some (Errorf_w "failed to add any route into the handler: " err))
  | (c, none) => (c, none)

end handler

/-! ## Package `proxy` (`proxy/service.go`) -/

namespace proxy

/-- Modelled from the spec: the controller category `service.DestinationName`, declared in
package `config/service` which is not among these sources. No proof depends on its value. -/
def DestinationName : String := "destination"

/-- A call made by `Prepare` on the base service or on the controller of the proxy. -/
inductive Step where
  /-- The call `proxy._service.Prepare(as)`. -/
  | Prepare (as : String)
  /-- The call `proxy._service.PrepareControllerConfiguration(name, as)`. -/
  | PrepareControllerConfiguration (name : String) (as : String)
  /-- The call `proxy.Controller.RegisterDestination(c, url)`. -/
  | RegisterDestination (c : service.Controller) (url : String)
  deriving DecidableEq, Repr

/-- The type `Controller` of package `proxy`, as far as these sources use it: the
destination type required by `RequireDestination`, and the destinations registered. -/
structure Controller where
  requiredDestination : String
  destinations : List (service.Controller × String)
  deriving DecidableEq, Repr

/-- Modelled from the spec: method `RegisterDestination` of the controller of the proxy,
declared in a file that is not among these sources: it "registers that destination's routing
category as the proxy's forwarding target". -/
def Controller.RegisterDestination (c : Controller) (destination : service.Controller)
    (serviceUrl : String) : Controller :=
  { c with destinations := c.destinations ++ [(destination, serviceUrl)] }

/-- The type `service.Service` embedded in `Proxy`, as far as these sources use it: the
configuration of the service. -/
structure BaseService where
  Config : config.Service
  deriving DecidableEq, Repr

/-- The methods of the base service that `Prepare` calls; they are declared in package
`service`, which is not among these sources. Each gives the base service afterwards and the
error returned. -/
structure Base where
  /-- Method `Prepare` of the base service. -/
  Prepare : BaseService → String → BaseService × Option GoError
  /-- Method `PrepareControllerConfiguration` of the base service. -/
  PrepareControllerConfiguration :
    BaseService → String → String → BaseService × Option GoError

/-- The type `Proxy`. -/
structure Proxy where
  _service : BaseService
  Controller : Controller
  deriving DecidableEq, Repr

/-- The result of `Prepare`: the proxy afterwards, the calls made, and the error returned. -/
structure Prepared where
  proxy : Proxy
  trace : List Step
  err : Option GoError
  deriving DecidableEq, Repr

/-- The loop of `registerDestination` over the controllers of the configuration: the
controller of the proxy afterwards and the call made, if any. -/
def registerDestinationLoop (url : String) :
    List service.Controller → Controller → Controller × List Step
  | [], controller => (controller, [])
  | c :: rest, controller =>
      if c.Category == DestinationName then
        (controller.RegisterDestination c url, [Step.RegisterDestination c url])
      else
        registerDestinationLoop url rest controller

/-- Method `registerDestination`. -/
def Proxy.registerDestination (proxy : Proxy) : Proxy × List Step :=
  let (controller, trace) :=
    registerDestinationLoop proxy._service.Config.Url proxy._service.Config.Controllers
      proxy.Controller
  ({ proxy with Controller := controller }, trace)

/-- Method `Prepare` of `Proxy`, over the methods `base` of the base service. -/
def Proxy.Prepare (base : Base) (proxy : Proxy) : Prepared :=
  if proxy.Controller.requiredDestination == service.UnknownType then
    ⟨proxy, [],
      some (GoError.new
        "missing the required destination. call proxy.ControllerCategory.RequireDestination")⟩
  else
    match base.Prepare proxy._service config.ProxyType with
    | (service1, some err) =>
        ⟨{ proxy with _service := service1 }, [Step.Prepare config.ProxyType],
          some (Errorf_w ("service.Run as '" ++ config.ProxyType ++ "' failed: ") err)⟩
    | (service1, none) =>
        match base.PrepareControllerConfiguration service1 DestinationName
            proxy.Controller.requiredDestination with
        | (service2, some err) =>
            ⟨{ proxy with _service := service2 },
              [Step.Prepare config.ProxyType,
               Step.PrepareControllerConfiguration DestinationName
                 proxy.Controller.requiredDestination],
              some (Errorf_w ("prepare destination as '" ++
                proxy.Controller.requiredDestination ++ "' failed: ") err)⟩
        | (service2, none) =>
            let (proxy1, trace) :=
              Proxy.registerDestination { proxy with _service := service2 }
            ⟨proxy1,
              [Step.Prepare config.ProxyType,
               Step.PrepareControllerConfiguration DestinationName
                 proxy.Controller.requiredDestination] ++ trace,
              none⟩

end proxy

/-! ## Package `categorizer/handler` (`categorizer/handler/snapshot.go`) -/

namespace categorizer

/-- The type `event.Log`, as far as these sources use it: the block timestamp (a `uint64`),
and the remaining fields in `Rest`. -/
structure Log where
  BlockTimestamp : Nat
  Rest : KeyValue Value := []
  deriving DecidableEq, Repr

/-- The type `smartcontract.Smartcontract`; these sources only pass it on. -/
structure Smartcontract where
  Rest : KeyValue Value := []
  deriving DecidableEq, Repr

/-- The type `topic.TopicFilter`; these sources only pass it on. -/
structure TopicFilter where
  Rest : KeyValue Value := []
  deriving DecidableEq, Repr

/-- The type `db.Database`; these sources only pass it on. -/
structure Database where
  name : String
  deriving DecidableEq, Repr

/-- The value of a parameter of a request or a reply of this package. -/
inductive Parameter where
  | uint64 (n : Nat)
  | str (s : String)
  | keyValue (kv : KeyValue Value)
  /-- The list of maps made by `data_type.ToMapList` from a list of logs. -/
  | mapList (logs : List Log)
  deriving DecidableEq, Repr

/-- The type `message.Request` of this package. -/
structure Request where
  Command : String
  Parameters : KeyValue Parameter
  deriving DecidableEq, Repr

/-- The type `message.Reply` of this package. -/
structure Reply where
  Status : String
  Message : String
  Parameters : KeyValue Parameter
  deriving DecidableEq, Repr

/-- The function `message.Fail` of this package: a reply of status `FAIL` carrying the
message. -/
def Fail (msg : String) : Reply :=
  { Status := "FAIL", Message := msg, Parameters := [] }

/-- The library functions that `GetSnapshot` calls; they are declared in packages that are
not among these sources, so their results are taken as given. -/
structure Library where
  /-- Method `GetUint64` of the parameters. -/
  GetUint64 : KeyValue Parameter → String → Except GoError Nat
  /-- Method `GetKeyValue` of the parameters. -/
  GetKeyValue : KeyValue Parameter → String → Except GoError (KeyValue Value)
  /-- The function `topic.ParseJSONToTopicFilter`. -/
  ParseJSONToTopicFilter : KeyValue Value → TopicFilter
  /-- Method `ToString` of a topic filter. -/
  ToString : TopicFilter → String
  /-- The function `configuration.QueryFilterSmartcontract`. -/
  QueryFilterSmartcontract : TopicFilter → String × List String
  /-- The function `smartcontract.GetFromDatabaseFilterBy` (its second result is unused). -/
  GetFromDatabaseFilterBy :
    Database → String → List String → Except GoError (List Smartcontract)
  /-- The function `event.GetLogsFromDb`. -/
  GetLogsFromDb : Database → List Smartcontract → Nat → Nat → Except GoError (List Log)

/-- The constant `SNAPSHOT_LIMIT`. -/
def SNAPSHOT_LIMIT : Nat := 500

/-- The loop of `GetSnapshot` over the logs: the variable `block_timestamp_to` afterwards. -/
def block_timestamp_to_loop : Nat → List Log → Nat
  | block_timestamp_to, [] => block_timestamp_to
  | block_timestamp_to, log :: rest =>
      if log.BlockTimestamp > block_timestamp_to then
        block_timestamp_to_loop log.BlockTimestamp rest
      else
        block_timestamp_to_loop block_timestamp_to rest

/-- Function `GetSnapshot`, over the library functions `lib`. -/
def GetSnapshot (lib : Library) (db_con : Database) (request : Request) : Reply :=
  match lib.GetUint64 request.Parameters "block_timestamp_from" with
  | Except.error err => Fail err.Error
  | Except.ok block_timestamp_from =>
      match lib.GetKeyValue request.Parameters "topic_filter" with
      | Except.error err => Fail err.Error
      | Except.ok topic_filter_map =>
          let topic_filter := lib.ParseJSONToTopicFilter topic_filter_map
          let (query, parameters) := lib.QueryFilterSmartcontract topic_filter
          match lib.GetFromDatabaseFilterBy db_con query parameters with
          | Except.error err =>
              Fail ("failed to filter smartcontracts by the topic filter:" ++ err.Error)
          | Except.ok smartcontracts =>
              if smartcontracts.length == 0 then
                Fail ("no matching smartcontracts for the topic filter " ++
                  lib.ToString topic_filter)
              else
                match lib.GetLogsFromDb db_con smartcontracts block_timestamp_from
                    SNAPSHOT_LIMIT with
                | Except.error err => Fail ("database error to filter logs: " ++ err.Error)
                | Except.ok logs =>
                    let block_timestamp_to :=
                      block_timestamp_to_loop block_timestamp_from logs
                    { Status := "OK",
                      Message := "",
                      Parameters :=
                        [("logs", Parameter.mapList logs),
                         ("block_timestamp", Parameter.uint64 block_timestamp_to)] }

end categorizer

end ExtLib

/-! ## Vocabulary of the properties -/

namespace ExtLib

/-- The name is a key of the map. -/
def KeyValue.HasKey {α : Type} (kv : KeyValue α) (name : String) : Prop :=
  name ∈ kv.map Prod.fst

instance KeyValue.instDecidableHasKey {α : Type} (kv : KeyValue α) (name : String) :
    Decidable (KeyValue.HasKey kv name) := by
  unfold KeyValue.HasKey
  infer_instance

/-- The instance declares a category, and one that differs from the category of the
controller. -/
def Conflicts (c : service.Controller) (inst : service.Instance) : Prop :=
  inst.ControllerCategory ≠ "" ∧ inst.ControllerCategory ≠ c.Category

instance instDecidableConflicts (c : service.Controller) (inst : service.Instance) :
    Decidable (Conflicts c inst) := by
  unfold Conflicts
  infer_instance

/-- The controller after a successful `Lint`: every instance carries the category of the
controller, and nothing else is changed. -/
def propagated (c : service.Controller) : service.Controller :=
  { c with Instances :=
      c.Instances.map (fun inst => { inst with ControllerCategory := c.Category }) }

/-- The number that a string of decimal digits denotes. -/
def decimalValue (s : String) : Nat :=
  s.data.foldl (fun acc ch => 10 * acc + (ch.toNat - 48)) 0

/-- The number of `socket.SendMessage` calls in a trace. -/
def sends (trace : List Effect) : Nat :=
  trace.countP (fun effect =>
    match effect with
    | Effect.Send _ => true
    | _ => false)

/-- The number of handler calls in a trace. -/
def handles (trace : List Effect) : Nat :=
  trace.countP (fun effect =>
    match effect with
    | Effect.Handle _ _ => true
    | _ => false)

/-- The maximum of a timestamp and of the block timestamps of a list of logs. -/
def maxTimestamp (block_timestamp_from : Nat) (logs : List categorizer.Log) : Nat :=
  (logs.map (fun log => log.BlockTimestamp)).foldl max block_timestamp_from

end ExtLib

/-! ## Example configurations -/

namespace ExtLib

/-- The route registered for `ping` in `dispatchController`. -/
def pingRoute : Route :=
  ⟨"ping", fun _ _ => ⟨OK, "", [("pong", Value.bool true)]⟩⟩

/-- The wildcard route of `dispatchController`. -/
def catchAllRoute : Route :=
  ⟨Any, fun request _ => ⟨OK, "", [("command", Value.str request.Command)]⟩⟩

/-- A replier controller with an exact route and a wildcard route. -/
def dispatchController : controller.Controller :=
  { config := some ⟨"main", [⟨9000⟩]⟩,
    controllerType := configuration.ReplierType,
    routes := ⟨[(Any, catchAllRoute), ("ping", pingRoute)]⟩,
    requiredExtensions := [],
    extensionConfigs := [],
    extensions := [] }

/-- A replier controller that requires the extensions `X`, `Y` and `Z`, of which only `X`
has a configuration. -/
def missingController : controller.Controller :=
  { config := some ⟨"main", [⟨9000⟩]⟩,
    controllerType := configuration.ReplierType,
    routes := ⟨[("ping", pingRoute)]⟩,
    requiredExtensions := ["X", "Y", "Z"],
    extensionConfigs := [("X", ⟨"X", 4000⟩)],
    extensions := [] }

/-- A `handler` controller that requires the extension `Y` and has a configuration for `X`
only. -/
def missingHandler : handler.Controller :=
  { config := none,
    serviceUrl := "github.com/ahmetson/sample",
    controllerType := service.SyncReplierType,
    routes := ⟨[]⟩,
    requiredExtensions := ["Y"],
    extensionConfigs := [("X", ⟨"X", 4000, []⟩)],
    extensions := [] }

/-- A second route for `ping`, whose handler fails. -/
def pingRoute2 : Route :=
  ⟨"ping", fun _ _ => Fail "second handler"⟩

/-- A replier controller without routes. -/
def freshController : controller.Controller :=
  { config := some ⟨"main", [⟨9000⟩]⟩,
    controllerType := configuration.ReplierType,
    routes := Routes.NewRoutes,
    requiredExtensions := [],
    extensionConfigs := [],
    extensions := [] }

/-- A `handler` controller without routes. -/
def freshHandler : handler.Controller :=
  { config := none,
    serviceUrl := "github.com/ahmetson/sample",
    controllerType := service.SyncReplierType,
    routes := Routes.NewRoutes,
    requiredExtensions := [],
    extensionConfigs := [],
    extensions := [] }

/-- A replier controller on which `ping` is already registered, with `pingRoute`. -/
def pingController : controller.Controller :=
  { freshController with routes := ⟨[("ping", pingRoute)]⟩ }

/-- A service whose controller `main` has an instance that declares the category `zz`. -/
def conflictService : config.Service :=
  { Type_ := config.ProxyType,
    Url := "github.com/ahmetson/sample",
    Id := "sample-1",
    Controllers :=
      [⟨"Replier", "main",
          [⟨1, "a", "", []⟩, ⟨2, "b", "main", []⟩, ⟨3, "c", "zz", []⟩, ⟨4, "d", "", []⟩], []⟩,
        ⟨"Replier", "source", [⟨5, "e", "", []⟩], []⟩],
    Proxies := [],
    Extensions := [],
    Pipelines := [] }

/-- A service whose instances declare no category or the category of their controller. -/
def plainService : config.Service :=
  { Type_ := config.IndependentType,
    Url := "github.com/ahmetson/sample",
    Id := "sample-1",
    Controllers :=
      [⟨"Replier", "main", [⟨1, "a", "", []⟩, ⟨2, "b", "main", []⟩], []⟩,
        ⟨"Pusher", "main", [⟨3, "c", "", []⟩], []⟩,
        ⟨"SyncReplier", "source", [], []⟩],
    Proxies := [⟨"github.com/ahmetson/proxy", [("port", Value.uint 81)]⟩],
    Extensions :=
      [⟨"github.com/ahmetson/db", 4000, []⟩, ⟨"github.com/ahmetson/auth", 4001, []⟩,
        ⟨"github.com/ahmetson/db", 4002, []⟩],
    Pipelines := [] }

/-- A service whose second controller has a type outside the known enumeration, and whose
first controller has an instance that declares no category. -/
def unknownTypeService : config.Service :=
  { Type_ := config.ExtensionType,
    Url := "github.com/ahmetson/sample",
    Id := "sample-1",
    Controllers :=
      [⟨"Replier", "main", [⟨1, "a", "", []⟩], []⟩,
        ⟨"Router", "source", [], []⟩],
    Proxies := [],
    Extensions := [],
    Pipelines := [] }

/-- Methods of a base service for which preparation succeeds: `Prepare` sets the type of the
configuration and `PrepareControllerConfiguration` adds a controller of the given category
and type. -/
def sampleBase : proxy.Base :=
  { Prepare := fun base as => ({ base with Config := { base.Config with Type_ := as } }, none),
    PrepareControllerConfiguration := fun base name as =>
      ({ base with Config := base.Config.SetController ⟨as, name, [⟨0, name, name, []⟩], []⟩ },
        none) }

/-- A proxy on which `RequireDestination` has not been called. -/
def unpreparedProxy : proxy.Proxy :=
  { _service := ⟨plainService⟩,
    Controller := { requiredDestination := service.UnknownType, destinations := [] } }

/-- A proxy that requires a destination of type `SyncReplier`. -/
def requiringProxy : proxy.Proxy :=
  { _service := ⟨plainService⟩,
    Controller := { requiredDestination := service.SyncReplierType, destinations := [] } }

/-- A replier controller whose only route is `ping`. -/
def pingOnlyController : controller.Controller :=
  { freshController with routes := ⟨[("ping", pingRoute)]⟩ }

/-- Outside calls that all succeed; a raw message of one part is parsed as the request with
that command and no parameters, and any other raw message fails to parse. -/
def sampleWorld : World :=
  { NewReq := fun _ _ => none,
    Bind := fun _ => none,
    ParseRequest := fun msgRaw =>
      match msgRaw with
      | [command] => Except.ok ⟨command, [], ""⟩
      | _ => Except.error (GoError.new "invalid message") }

/-- A controller of another type than replier, with the route `ping`. -/
def pullController : controller.Controller :=
  { pingOnlyController with controllerType := "Puller" }

/-- The request `double` with the parameter `n` set to 21. -/
def doubleRequest : Request := ⟨"double", [("n", Value.uint 21)], ""⟩

/-- The extension clients of a source controller: the client of the proxy. -/
def proxyClients : Clients := [("proxy", ⟨"proxy", 0⟩)]

/-- Three logs, of block timestamps 20, 30 and 25. -/
def sampleLogs : List categorizer.Log := [⟨20, []⟩, ⟨30, []⟩, ⟨25, []⟩]

/-- Library functions over a database that holds one smartcontract for every topic filter and
the logs `sampleLogs`: the parameters are read from the request, and the logs returned are
those from the given timestamp on, up to the limit. -/
def sampleLibrary : categorizer.Library :=
  { GetUint64 := fun parameters name =>
      match parameters.find? (fun entry => entry.1 == name) with
      | some (_, categorizer.Parameter.uint64 n) => Except.ok n
      | _ => Except.error (GoError.new ("missing " ++ name)),
    GetKeyValue := fun parameters name =>
      match parameters.find? (fun entry => entry.1 == name) with
      | some (_, categorizer.Parameter.keyValue kv) => Except.ok kv
      | _ => Except.error (GoError.new ("missing " ++ name)),
    ParseJSONToTopicFilter := fun kv => ⟨kv⟩,
    ToString := fun _ => "topic filter",
    QueryFilterSmartcontract := fun _ => ("", []),
    GetFromDatabaseFilterBy := fun _ _ _ => Except.ok [⟨[]⟩],
    GetLogsFromDb := fun _ _ block_timestamp_from limit =>
      Except.ok ((sampleLogs.filter
        (fun log => decide (block_timestamp_from ≤ log.BlockTimestamp))).take limit) }

/-- A snapshot request from the timestamp 22. -/
def snapshotRequest : categorizer.Request :=
  ⟨"snapshot_get",
    [("block_timestamp_from", categorizer.Parameter.uint64 22),
     ("topic_filter", categorizer.Parameter.keyValue [("n", Value.str "1")])]⟩

/-- A snapshot request from the timestamp 40, after every log. -/
def lateSnapshotRequest : categorizer.Request :=
  ⟨"snapshot_get",
    [("block_timestamp_from", categorizer.Parameter.uint64 40),
     ("topic_filter", categorizer.Parameter.keyValue [("n", Value.str "1")])]⟩

end ExtLib

/-! ## Properties -/

namespace ExtLib

/-! ### Route table lemmas -/

theorem Routes.get_of_exist (routes : Routes) (command : String)
    (h : routes.Exist command = true) :
    ∃ route, routes.Get command = Except.ok route ∧ (command, route) ∈ routes.entries := by
  unfold Routes.Exist at h
  unfold Routes.Get
  cases hf : routes.entries.find? (fun entry => entry.1 == command) with
  | none =>
      rw [List.find?_eq_none] at hf
      rw [List.any_eq_true] at h
      obtain ⟨entry, hmem, hcmd⟩ := h
      exact absurd hcmd (hf entry hmem)
  | some entry =>
      have hmem := List.mem_of_find?_eq_some hf
      have hcmd := List.find?_some hf
      have hc : entry.1 = command := by simpa using hcmd
      refine ⟨entry.2, rfl, ?_⟩
      rw [← hc]
      exact hmem

theorem Routes.get_of_not_exist (routes : Routes) (command : String)
    (h : routes.Exist command = false) :
    ∃ err, routes.Get command = Except.error err := by
  unfold Routes.Exist at h
  unfold Routes.Get
  cases hf : routes.entries.find? (fun entry => entry.1 == command) with
  | none => exact ⟨_, rfl⟩
  | some entry =>
      have hmem := List.mem_of_find?_eq_some hf
      have hcmd := List.find?_some hf
      have : routes.entries.any (fun entry => entry.1 == command) = true :=
        List.any_eq_true.mpr ⟨entry, hmem, hcmd⟩
      rw [h] at this
      exact absurd this (by decide)

theorem Routes.exist_add (routes : Routes) (command : String) (route : Route)
    (h : routes.Exist command = false) :
    ∃ routes1, routes.Add command route = Except.ok routes1 ∧
      routes1.Exist command = true ∧ routes1.Get command = Except.ok route := by
  refine ⟨⟨routes.entries ++ [(command, route)]⟩, ?_, ?_, ?_⟩
  · simp [Routes.Add, h]
  · simp [Routes.Exist]
  · unfold Routes.Exist at h
    have hnone : routes.entries.find? (fun entry => entry.1 == command) = none := by
      rw [List.find?_eq_none]
      intro entry hmem hcmd
      have : routes.entries.any (fun entry => entry.1 == command) = true :=
        List.any_eq_true.mpr ⟨entry, hmem, hcmd⟩
      rw [h] at this
      exact absurd this (by decide)
    simp [Routes.Get, List.find?_append, hnone]

/-! ### Dispatch order -/

/-- C1. In the dispatch step of `Run`, for every controller (hence every route table) and
every request: if an exact route for the request's command is registered, the handler invoked
is the one the table holds for that command, whether or not a wildcard route is registered;
if no exact route is registered and a wildcard route is, the wildcard route's handler is
invoked; if neither is registered, no handler is invoked and the reply is a `FAIL`. In the
first two cases the reply is the one computed by the invoked handler. -/
theorem dispatch_exact_then_wildcard_then_fail (c : controller.Controller) (request : Request) :
    (c.routes.Exist request.Command = true →
      ∃ route, c.routes.Get request.Command = Except.ok route ∧
        (request.Command, route) ∈ c.routes.entries ∧
        (controller.dispatch c request).invoked = some route ∧
        (controller.dispatch c request).reply = route.handler request c.extensions) ∧
    (c.routes.Exist request.Command = false → c.routes.Exist Any = true →
      ∃ route, c.routes.Get Any = Except.ok route ∧
        (Any, route) ∈ c.routes.entries ∧
        (controller.dispatch c request).invoked = some route ∧
        (controller.dispatch c request).reply = route.handler request c.extensions) ∧
    (c.routes.Exist request.Command = false → c.routes.Exist Any = false →
      (controller.dispatch c request).invoked = none ∧
        (controller.dispatch c request).reply.Status = FAIL) := by
  refine ⟨?_, ?_, ?_⟩
  · intro hexact
    obtain ⟨route, hget, hmem⟩ := Routes.get_of_exist c.routes request.Command hexact
    refine ⟨route, hget, hmem, ?_, ?_⟩ <;>
      simp [controller.dispatch, hexact, hget, Route.Handle]
  · intro hexact hany
    obtain ⟨route, hget, hmem⟩ := Routes.get_of_exist c.routes Any hany
    refine ⟨route, hget, hmem, ?_, ?_⟩ <;>
      simp [controller.dispatch, hexact, hany, hget, Route.Handle]
  · intro hexact hany
    constructor <;> simp [controller.dispatch, hexact, hany, Fail]

/-- The exact route wins over the wildcard route registered before it: the reply to `ping`
is the one of the `ping` handler. -/
theorem dispatch_exact_then_wildcard_then_fail_witness :
    (controller.dispatch dispatchController ⟨"ping", [], ""⟩).reply
      = ⟨OK, "", [("pong", Value.bool true)]⟩ := by
  obtain ⟨route, hget, _, _, hreply⟩ :=
    (dispatch_exact_then_wildcard_then_fail dispatchController ⟨"ping", [], ""⟩).1
      (by decide)
  have hroute : route = pingRoute := by
    have h : dispatchController.routes.Get "ping" = Except.ok pingRoute := by
      simp [Routes.Get, dispatchController, List.find?, Any]
    rw [h] at hget
    injection hget with hget
    exact hget.symm
  rw [hreply, hroute]
  rfl

/-! ### Required extensions -/

theorem KeyValue.exist_eq_none {α : Type} (kv : KeyValue α) (name : String) :
    KeyValue.Exist kv name = none ↔ KeyValue.HasKey kv name := by
  unfold KeyValue.Exist KeyValue.HasKey
  by_cases h : kv.any (fun entry => entry.1 == name) = true
  · simp only [h, if_true, true_iff]
    rw [List.any_eq_true] at h
    obtain ⟨entry, hmem, hname⟩ := h
    have : entry.1 = name := by simpa using hname
    rw [← this]
    exact List.mem_map_of_mem Prod.fst hmem
  · simp only [h, if_false]
    constructor
    · intro hsome
      exact absurd hsome (by simp)
    · intro hkey
      rw [List.mem_map] at hkey
      obtain ⟨entry, hmem, hname⟩ := hkey
      exact absurd (List.any_eq_true.mpr ⟨entry, hmem, by simpa using hname⟩) h

theorem contains_middle (pre mid post : String) : Contains (pre ++ mid ++ post) mid := by
  unfold Contains
  refine ⟨pre.data, post.data, ?_⟩
  simp [String.data_append]

theorem controller_extensionsAddedLoop_spec (kv : KeyValue configuration.Extension)
    (required : List String) :
    (controller.Controller.extensionsAddedLoop kv required = none ∧
      ∀ name ∈ required, KeyValue.HasKey kv name) ∨
    (∃ before name after, required = before ++ name :: after ∧
      (∀ n ∈ before, KeyValue.HasKey kv n) ∧ ¬ KeyValue.HasKey kv name ∧
      controller.Controller.extensionsAddedLoop kv required =
        some (GoError.new ("required '" ++ name ++
          "' extension. but it wasn't added to the controller (does it exist in seascape.yml?)"))) := by
  induction required with
  | nil => exact Or.inl ⟨rfl, by simp⟩
  | cons name rest ih =>
      cases hex : KeyValue.Exist kv name with
      | some err =>
          right
          refine ⟨[], name, rest, rfl, by simp, ?_, ?_⟩
          · intro hkey
            rw [(KeyValue.exist_eq_none kv name).mpr hkey] at hex
            exact absurd hex (by simp)
          · simp [controller.Controller.extensionsAddedLoop, hex]
      | none =>
          have hkey := (KeyValue.exist_eq_none kv name).mp hex
          rcases ih with ⟨hnone, hall⟩ | ⟨before, missing, after, hsplit, hbefore, hmissing, herr⟩
          · left
            refine ⟨by simp [controller.Controller.extensionsAddedLoop, hex, hnone], ?_⟩
            intro n hn
            rcases List.mem_cons.mp hn with h | h
            · rw [h]; exact hkey
            · exact hall n h
          · right
            refine ⟨name :: before, missing, after, by simp [hsplit], ?_, hmissing, ?_⟩
            · intro n hn
              rcases List.mem_cons.mp hn with h | h
              · rw [h]; exact hkey
              · exact hbefore n h
            · simp [controller.Controller.extensionsAddedLoop, hex, herr]

theorem handler_extensionsAddedLoop_spec (kv : KeyValue service.Extension)
    (required : List String) :
    (handler.Controller.extensionsAddedLoop kv required = none ∧
      ∀ name ∈ required, KeyValue.HasKey kv name) ∨
    (∃ before name after, required = before ++ name :: after ∧
      (∀ n ∈ before, KeyValue.HasKey kv n) ∧ ¬ KeyValue.HasKey kv name ∧
      handler.Controller.extensionsAddedLoop kv required =
        some (GoError.new ("required '" ++ name ++
          "' extension. but it wasn't added to the handler (does it exist in config.yml?)"))) := by
  induction required with
  | nil => exact Or.inl ⟨rfl, by simp⟩
  | cons name rest ih =>
      cases hex : KeyValue.Exist kv name with
      | some err =>
          right
          refine ⟨[], name, rest, rfl, by simp, ?_, ?_⟩
          · intro hkey
            rw [(KeyValue.exist_eq_none kv name).mpr hkey] at hex
            exact absurd hex (by simp)
          · simp [handler.Controller.extensionsAddedLoop, hex]
      | none =>
          have hkey := (KeyValue.exist_eq_none kv name).mp hex
          rcases ih with ⟨hnone, hall⟩ | ⟨before, missing, after, hsplit, hbefore, hmissing, herr⟩
          · left
            refine ⟨by simp [handler.Controller.extensionsAddedLoop, hex, hnone], ?_⟩
            intro n hn
            rcases List.mem_cons.mp hn with h | h
            · rw [h]; exact hkey
            · exact hall n h
          · right
            refine ⟨name :: before, missing, after, by simp [hsplit], ?_, hmissing, ?_⟩
            · intro n hn
              rcases List.mem_cons.mp hn with h | h
              · rw [h]; exact hkey
              · exact hbefore n h
            · simp [handler.Controller.extensionsAddedLoop, hex, herr]

theorem controller_run_of_extensionsAdded_error (c : controller.Controller) (err : GoError)
    (h : c.extensionsAdded = some err) (w : World) (inbound : List Inbound) :
    controller.Run c w inbound =
      ⟨[], Outcome.returned (Errorf_w "extensionsAdded: " err)⟩ := by
  simp [controller.Run, h]

/-- C2. For every controller state of package `controller` and of package `handler`: if some
name in `requiredExtensions` is not a key of `extensionConfigs`, then `extensionsAdded`
returns an error whose message names the first such name (every required name before it is a
key), and `Run` returns that error, wrapped under `extensionsAdded: `, with an empty trace of
outside calls: no extension client has been created and the socket has not been bound.
`extensionsAdded` returns `nil` if and only if every required name is a key of
`extensionConfigs`, in particular when nothing is required. -/
theorem extensionsAdded_missing_fails_before_bind
    (c : controller.Controller) (h : handler.Controller) :
    ((∃ name ∈ c.requiredExtensions, ¬ KeyValue.HasKey c.extensionConfigs name) →
      ∃ before name after err,
        c.requiredExtensions = before ++ name :: after ∧
        (∀ n ∈ before, KeyValue.HasKey c.extensionConfigs n) ∧
        ¬ KeyValue.HasKey c.extensionConfigs name ∧
        c.extensionsAdded = some err ∧ Contains err.Error name ∧
        ∀ (w : World) (inbound : List Inbound),
          controller.Run c w inbound =
            ⟨[], Outcome.returned (GoError.wrap ("extensionsAdded: " ++ err.Error) err)⟩) ∧
    (c.extensionsAdded = none ↔
      ∀ name ∈ c.requiredExtensions, KeyValue.HasKey c.extensionConfigs name) ∧
    (c.requiredExtensions = [] → c.extensionsAdded = none) ∧
    ((∃ name ∈ h.requiredExtensions, ¬ KeyValue.HasKey h.extensionConfigs name) →
      ∃ before name after err,
        h.requiredExtensions = before ++ name :: after ∧
        (∀ n ∈ before, KeyValue.HasKey h.extensionConfigs n) ∧
        ¬ KeyValue.HasKey h.extensionConfigs name ∧
        h.extensionsAdded = some err ∧ Contains err.Error name) ∧
    (h.extensionsAdded = none ↔
      ∀ name ∈ h.requiredExtensions, KeyValue.HasKey h.extensionConfigs name) ∧
    (h.requiredExtensions = [] → h.extensionsAdded = none) := by
  have hc := controller_extensionsAddedLoop_spec c.extensionConfigs c.requiredExtensions
  have hh := handler_extensionsAddedLoop_spec h.extensionConfigs h.requiredExtensions
  refine ⟨?_, ?_, ?_, ?_, ?_, ?_⟩
  · rintro ⟨name, hmem, hkey⟩
    rcases hc with ⟨_, hall⟩ | ⟨before, missing, after, hsplit, hbefore, hmissing, herr⟩
    · exact absurd (hall name hmem) hkey
    · refine ⟨before, missing, after, _, hsplit, hbefore, hmissing, herr, ?_, ?_⟩
      · exact contains_middle _ _ _
      · intro w inbound
        exact controller_run_of_extensionsAdded_error c _ herr w inbound
  · constructor
    · intro hnone
      rcases hc with ⟨_, hall⟩ | ⟨_, _, _, _, _, _, herr⟩
      · exact hall
      · unfold controller.Controller.extensionsAdded at hnone
        rw [hnone] at herr
        exact absurd herr (by simp)
    · intro hall
      rcases hc with ⟨hnone, _⟩ | ⟨before, missing, after, hsplit, _, hmissing, _⟩
      · exact hnone
      · exact absurd (hall missing (by simp [hsplit])) hmissing
  · intro hnil
    simp [controller.Controller.extensionsAdded, hnil,
      controller.Controller.extensionsAddedLoop]
  · rintro ⟨name, hmem, hkey⟩
    rcases hh with ⟨_, hall⟩ | ⟨before, missing, after, hsplit, hbefore, hmissing, herr⟩
    · exact absurd (hall name hmem) hkey
    · exact ⟨before, missing, after, _, hsplit, hbefore, hmissing, herr,
        contains_middle _ _ _⟩
  · constructor
    · intro hnone
      rcases hh with ⟨_, hall⟩ | ⟨_, _, _, _, _, _, herr⟩
      · exact hall
      · unfold handler.Controller.extensionsAdded at hnone
        rw [hnone] at herr
        exact absurd herr (by simp)
    · intro hall
      rcases hh with ⟨hnone, _⟩ | ⟨before, missing, after, hsplit, _, hmissing, _⟩
      · exact hnone
      · exact absurd (hall missing (by simp [hsplit])) hmissing
  · intro hnil
    simp [handler.Controller.extensionsAdded, hnil, handler.Controller.extensionsAddedLoop]

/-- The controller requiring `X`, `Y`, `Z` with only `X` configured: `Run` fails on a missing
extension with no outside call made. -/
theorem extensionsAdded_missing_fails_before_bind_witness :
    ∃ before name after err,
      missingController.requiredExtensions = before ++ name :: after ∧
      (∀ n ∈ before, KeyValue.HasKey missingController.extensionConfigs n) ∧
      ¬ KeyValue.HasKey missingController.extensionConfigs name ∧
      missingController.extensionsAdded = some err ∧ Contains err.Error name ∧
      ∀ (w : World) (inbound : List Inbound),
        controller.Run missingController w inbound =
          ⟨[], Outcome.returned (GoError.wrap ("extensionsAdded: " ++ err.Error) err)⟩ :=
  (extensionsAdded_missing_fails_before_bind missingController missingHandler).1
    ⟨"Y", by decide, by decide⟩

/-! ### Route registration -/

theorem controller_addRoute_spec (c : controller.Controller) (route : Route) :
    (c.routes.Exist route.Command = true ∧ c.AddRoute route = (c, none)) ∨
    (c.routes.Exist route.Command = false ∧
      ∃ routes1, c.AddRoute route = ({ c with routes := routes1 }, none) ∧
        routes1.Exist route.Command = true ∧
        routes1.Get route.Command = Except.ok route) := by
  cases hex : c.routes.Exist route.Command with
  | true =>
      left
      exact ⟨rfl, by simp [controller.Controller.AddRoute, controller.Controller.AddRouteWith, hex]⟩
  | false =>
      right
      obtain ⟨routes1, hadd, hexist, hget⟩ := Routes.exist_add c.routes route.Command route hex
      exact ⟨rfl, routes1,
        by simp [controller.Controller.AddRoute, controller.Controller.AddRouteWith, hex, hadd],
        hexist, hget⟩

theorem handler_addRoute_spec (c : handler.Controller) (route : Route) :
    (c.routes.Exist route.Command = true ∧ c.AddRoute route = (c, none)) ∨
    (c.routes.Exist route.Command = false ∧
      ∃ routes1, c.AddRoute route = ({ c with routes := routes1 }, none) ∧
        routes1.Exist route.Command = true ∧
        routes1.Get route.Command = Except.ok route) := by
  cases hex : c.routes.Exist route.Command with
  | true =>
      left
      exact ⟨rfl, by simp [handler.Controller.AddRoute, handler.Controller.AddRouteWith, hex]⟩
  | false =>
      right
      obtain ⟨routes1, hadd, hexist, hget⟩ := Routes.exist_add c.routes route.Command route hex
      exact ⟨rfl, routes1,
        by simp [handler.Controller.AddRoute, handler.Controller.AddRouteWith, hex, hadd],
        hexist, hget⟩

theorem controller_addRoute_twice (c : controller.Controller) (r1 r2 : Route)
    (hcmd : r1.Command = r2.Command) :
    (c.AddRoute r1).2 = none ∧
    (c.AddRoute r1).1.routes.Exist r1.Command = true ∧
    (c.AddRoute r1).1.AddRoute r2 = ((c.AddRoute r1).1, none) ∧
    (c.routes.Exist r1.Command = false →
      (c.AddRoute r1).1.routes.Get r1.Command = Except.ok r1) := by
  rcases controller_addRoute_spec c r1 with ⟨hex, hadd⟩ | ⟨hex, routes1, hadd, hexist, hget⟩
  · rw [hadd]
    refine ⟨rfl, hex, ?_, ?_⟩
    · rw [hcmd] at hex
      rcases controller_addRoute_spec c r2 with ⟨_, h2⟩ | ⟨hex2, _⟩
      · exact h2
      · rw [hex] at hex2
        exact absurd hex2 (by decide)
    · intro hfresh
      rw [hex] at hfresh
      exact absurd hfresh (by decide)
  · rw [hadd]
    refine ⟨rfl, hexist, ?_, fun _ => hget⟩
    have hexist2 : ({ c with routes := routes1 } : controller.Controller).routes.Exist
        r2.Command = true := by
      rw [← hcmd]
      exact hexist
    rcases controller_addRoute_spec { c with routes := routes1 } r2 with ⟨_, h2⟩ | ⟨hex2, _⟩
    · exact h2
    · rw [hexist2] at hex2
      exact absurd hex2 (by decide)

theorem handler_addRoute_twice (c : handler.Controller) (r1 r2 : Route)
    (hcmd : r1.Command = r2.Command) :
    (c.AddRoute r1).2 = none ∧
    (c.AddRoute r1).1.routes.Exist r1.Command = true ∧
    (c.AddRoute r1).1.AddRoute r2 = ((c.AddRoute r1).1, none) ∧
    (c.routes.Exist r1.Command = false →
      (c.AddRoute r1).1.routes.Get r1.Command = Except.ok r1) := by
  rcases handler_addRoute_spec c r1 with ⟨hex, hadd⟩ | ⟨hex, routes1, hadd, hexist, hget⟩
  · rw [hadd]
    refine ⟨rfl, hex, ?_, ?_⟩
    · rw [hcmd] at hex
      rcases handler_addRoute_spec c r2 with ⟨_, h2⟩ | ⟨hex2, _⟩
      · exact h2
      · rw [hex] at hex2
        exact absurd hex2 (by decide)
    · intro hfresh
      rw [hex] at hfresh
      exact absurd hfresh (by decide)
  · rw [hadd]
    refine ⟨rfl, hexist, ?_, fun _ => hget⟩
    have hexist2 : ({ c with routes := routes1 } : handler.Controller).routes.Exist
        r2.Command = true := by
      rw [← hcmd]
      exact hexist
    rcases handler_addRoute_spec { c with routes := routes1 } r2 with ⟨_, h2⟩ | ⟨hex2, _⟩
    · exact h2
    · rw [hexist2] at hex2
      exact absurd hex2 (by decide)

theorem controller_addRouteWith_no_error
    (add : Routes → String → Route → Except GoError Routes)
    (hadd : ∀ routes command route err,
      add routes command route = Except.error err → routes.Exist command = true)
    (c : controller.Controller) (route : Route) :
    (controller.Controller.AddRouteWith add c route).2 = none := by
  unfold controller.Controller.AddRouteWith
  cases hex : c.routes.Exist route.Command with
  | true => simp
  | false =>
      cases hres : add c.routes route.Command route with
      | error err =>
          have := hadd _ _ _ _ hres
          rw [hex] at this
          exact absurd this (by decide)
      | ok routes1 => simp

theorem handler_addRouteWith_no_error
    (add : Routes → String → Route → Except GoError Routes)
    (hadd : ∀ routes command route err,
      add routes command route = Except.error err → routes.Exist command = true)
    (c : handler.Controller) (route : Route) :
    (handler.Controller.AddRouteWith add c route).2 = none := by
  unfold handler.Controller.AddRouteWith
  cases hex : c.routes.Exist route.Command with
  | true => simp
  | false =>
      cases hres : add c.routes route.Command route with
      | error err =>
          have := hadd _ _ _ _ hres
          rw [hex] at this
          exact absurd this (by decide)
      | ok routes1 => simp

/-- C3, as stated, fails on a controller that already holds a route for the command: on
`pingController`, where `ping` is registered with `pingRoute`, the calls `AddRoute(pingRoute2)`
and `AddRoute(pingRoute2)` for the same command return no error, and the route looked up for
`ping` afterwards is `pingRoute`, whose handler replies differently from the handler of the
route passed to the first call. -/
theorem AddRoute_twice_keeps_earlier_route :
    pingRoute2.Command = "ping" ∧
    (pingController.AddRoute pingRoute2).2 = none ∧
    ((pingController.AddRoute pingRoute2).1.AddRoute pingRoute2).2 = none ∧
    ((pingController.AddRoute pingRoute2).1.AddRoute pingRoute2).1.routes.Get "ping"
      = Except.ok pingRoute ∧
    pingRoute.handler ⟨"ping", [], ""⟩ [] ≠ pingRoute2.handler ⟨"ping", [], ""⟩ [] := by
  refine ⟨rfl, ?_, ?_, ?_, ?_⟩
  · simp [controller.Controller.AddRoute, controller.Controller.AddRouteWith, pingController,
      pingRoute2, Routes.Exist]
  · simp [controller.Controller.AddRoute, controller.Controller.AddRouteWith, pingController,
      pingRoute2, Routes.Exist]
  · simp [controller.Controller.AddRoute, controller.Controller.AddRouteWith, pingController,
      pingRoute2, Routes.Exist, Routes.Get]
  · simp [pingRoute, pingRoute2, Fail, OK, FAIL]

/-- C3, amended. For every controller (of package `controller` and of package `handler`) and
every two routes `r1`, `r2` with the same command identifier, `AddRoute(r1)` and then
`AddRoute(r2)` return no error on either call, and the second call leaves the controller, hence
its route table, exactly as it was after `AddRoute(r1)` alone: the route looked up for the
command is the one looked up after the first call, which is `r1` when the command was not
registered before the first call. More generally, for any implementation of the route table's
`Add` that fails only for an already registered command, `AddRoute` never returns an error. -/
theorem AddRoute_same_command_second_is_noop
    (c : controller.Controller) (h : handler.Controller) (r1 r2 : Route)
    (hcmd : r1.Command = r2.Command) :
    ((c.AddRoute r1).2 = none ∧
      ((c.AddRoute r1).1.AddRoute r2).2 = none ∧
      ((c.AddRoute r1).1.AddRoute r2).1 = (c.AddRoute r1).1 ∧
      ((c.AddRoute r1).1.AddRoute r2).1.routes.Get r2.Command
        = (c.AddRoute r1).1.routes.Get r1.Command ∧
      (c.routes.Exist r1.Command = false →
        ((c.AddRoute r1).1.AddRoute r2).1.routes.Get r2.Command = Except.ok r1)) ∧
    ((h.AddRoute r1).2 = none ∧
      ((h.AddRoute r1).1.AddRoute r2).2 = none ∧
      ((h.AddRoute r1).1.AddRoute r2).1 = (h.AddRoute r1).1 ∧
      ((h.AddRoute r1).1.AddRoute r2).1.routes.Get r2.Command
        = (h.AddRoute r1).1.routes.Get r1.Command ∧
      (h.routes.Exist r1.Command = false →
        ((h.AddRoute r1).1.AddRoute r2).1.routes.Get r2.Command = Except.ok r1)) ∧
    (∀ add : Routes → String → Route → Except GoError Routes,
      (∀ routes command route err,
        add routes command route = Except.error err → routes.Exist command = true) →
      ∀ (c1 : controller.Controller) (h1 : handler.Controller) (route : Route),
        (controller.Controller.AddRouteWith add c1 route).2 = none ∧
        (handler.Controller.AddRouteWith add h1 route).2 = none) := by
  obtain ⟨hc1, _, hc3, hc4⟩ := controller_addRoute_twice c r1 r2 hcmd
  obtain ⟨hh1, _, hh3, hh4⟩ := handler_addRoute_twice h r1 r2 hcmd
  refine ⟨⟨hc1, ?_, ?_, ?_, ?_⟩, ⟨hh1, ?_, ?_, ?_, ?_⟩, ?_⟩
  · rw [hc3]
  · rw [hc3]
  · rw [hc3, hcmd]
  · intro hfresh
    rw [hc3, ← hcmd]
    exact hc4 hfresh
  · rw [hh3]
  · rw [hh3]
  · rw [hh3, hcmd]
  · intro hfresh
    rw [hh3, ← hcmd]
    exact hh4 hfresh
  · intro add hadd c1 h1 route
    exact ⟨controller_addRouteWith_no_error add hadd c1 route,
      handler_addRouteWith_no_error add hadd h1 route⟩

/-- On a controller without routes, registering `pingRoute` and then `pingRoute2` for the
same command returns no error and `ping` is still looked up as `pingRoute`. -/
theorem AddRoute_same_command_second_is_noop_witness :
    pingRoute.Command = pingRoute2.Command ∧
    (freshController.AddRoute pingRoute).2 = none ∧
    ((freshController.AddRoute pingRoute).1.AddRoute pingRoute2).2 = none ∧
    ((freshController.AddRoute pingRoute).1.AddRoute pingRoute2).1.routes.Get
      pingRoute2.Command = Except.ok pingRoute :=
  have h := (AddRoute_same_command_second_is_noop freshController freshHandler
    pingRoute pingRoute2 rfl).1
  ⟨rfl, h.1, h.2.1, h.2.2.2.2 (by decide)⟩

/-! ### Lint -/

theorem length_pos_iff_ne_empty (s : String) : s.length > 0 ↔ s ≠ "" := by
  constructor
  · intro h hs
    rw [hs] at h
    exact absurd h (by decide)
  · intro h
    rcases Nat.eq_zero_or_pos s.length with h0 | hpos
    · exfalso
      apply h
      have hd : s.data = [] := List.length_eq_zero.mp h0
      exact String.ext hd
    · exact hpos

theorem contains_self (s : String) : Contains s s := List.infix_refl _

theorem contains_append_left (a b x : String) (h : Contains a x) : Contains (a ++ b) x := by
  unfold Contains at *
  rw [String.data_append]
  exact List.IsInfix.trans h (List.prefix_append a.data b.data).isInfix

theorem contains_append_right (a b x : String) (h : Contains b x) : Contains (a ++ b) x := by
  unfold Contains at *
  rw [String.data_append]
  exact List.IsInfix.trans h (List.suffix_append a.data b.data).isInfix

theorem LintErrorf_contains (a1 a2 a3 a4 a5 : String) :
    Contains (config.LintErrorf a1 a2 a3 a4 a5).Error a1 ∧
    Contains (config.LintErrorf a1 a2 a3 a4 a5).Error a2 ∧
    Contains (config.LintErrorf a1 a2 a3 a4 a5).Error a4 := by
  unfold config.LintErrorf GoError.Error
  refine ⟨?_, ?_, ?_⟩
  · iterate 10 apply contains_append_left
    exact contains_append_right _ _ _ (contains_self _)
  · iterate 8 apply contains_append_left
    exact contains_append_right _ _ _ (contains_self _)
  · iterate 3 apply contains_append_left
    exact contains_append_right _ _ _ (contains_self _)

/-- The instance once its category is set to `category`. -/
theorem setCategory_of_eq (inst : service.Instance) (category : String)
    (h : inst.ControllerCategory = category) :
    ({ inst with ControllerCategory := category } : service.Instance) = inst := by
  cases inst
  simp_all

theorem LintInstances_spec (id : String) (c : service.Controller)
    (instances : List service.Instance) :
    ((∀ inst ∈ instances, ¬ Conflicts c inst) ∧
      config.LintInstances id c.Category instances =
        (instances.map (fun inst => { inst with ControllerCategory := c.Category }), none)) ∨
    (∃ before inst after, instances = before ++ inst :: after ∧
      (∀ i ∈ before, ¬ Conflicts c i) ∧ Conflicts c inst ∧
      config.LintInstances id c.Category instances =
        (before.map (fun inst => { inst with ControllerCategory := c.Category })
            ++ inst :: after,
          some (config.LintErrorf id c.Category inst.Id inst.ControllerCategory c.Category))) := by
  induction instances with
  | nil => exact Or.inl ⟨by simp, rfl⟩
  | cons inst rest ih =>
      by_cases hlen : inst.ControllerCategory.length > 0
      · by_cases hne : inst.ControllerCategory = c.Category
        · -- the declared category matches: `continue`
          have hok : ¬ Conflicts c inst := fun hc => hc.2 hne
          rcases ih with ⟨hall, hrest⟩ | ⟨before, bad, after, hsplit, hbefore, hbad, hrest⟩
          · left
            refine ⟨?_, ?_⟩
            · intro i hi
              rcases List.mem_cons.mp hi with h | h
              · rw [h]; exact hok
              · exact hall i h
            · simp [config.LintInstances, hlen, hne, hrest, setCategory_of_eq inst c.Category hne]
          · right
            refine ⟨inst :: before, bad, after, by simp [hsplit], ?_, hbad, ?_⟩
            · intro i hi
              rcases List.mem_cons.mp hi with h | h
              · rw [h]; exact hok
              · exact hbefore i h
            · simp [config.LintInstances, hlen, hne, hrest,
                setCategory_of_eq inst c.Category hne]
        · -- the declared category differs: the error
          right
          refine ⟨[], inst, rest, rfl, by simp, ⟨(length_pos_iff_ne_empty _).mp hlen, hne⟩, ?_⟩
          simp [config.LintInstances, hlen, hne]
      · -- no category declared: assignment
        have hempty : inst.ControllerCategory = "" := by
          by_contra hne
          exact hlen ((length_pos_iff_ne_empty _).mpr hne)
        have hok : ¬ Conflicts c inst := fun hc => hc.1 hempty
        rcases ih with ⟨hall, hrest⟩ | ⟨before, bad, after, hsplit, hbefore, hbad, hrest⟩
        · left
          refine ⟨?_, ?_⟩
          · intro i hi
            rcases List.mem_cons.mp hi with h | h
            · rw [h]; exact hok
            · exact hall i h
          · simp [config.LintInstances, hlen, hrest]
        · right
          refine ⟨inst :: before, bad, after, by simp [hsplit], ?_, hbad, ?_⟩
          · intro i hi
            rcases List.mem_cons.mp hi with h | h
            · rw [h]; exact hok
            · exact hbefore i h
          · simp [config.LintInstances, hlen, hrest]

theorem LintControllers_spec (id : String) (controllers : List service.Controller) :
    ((∀ c ∈ controllers, ∀ inst ∈ c.Instances, ¬ Conflicts c inst) ∧
      config.LintControllers id controllers = (controllers.map propagated, none)) ∨
    (∃ cbefore c cafter before inst after,
      controllers = cbefore ++ c :: cafter ∧ c.Instances = before ++ inst :: after ∧
      (∀ c1 ∈ cbefore, ∀ i ∈ c1.Instances, ¬ Conflicts c1 i) ∧
      (∀ i ∈ before, ¬ Conflicts c i) ∧ Conflicts c inst ∧
      config.LintControllers id controllers =
        (cbefore.map propagated ++
          { c with Instances :=
              before.map (fun i => { i with ControllerCategory := c.Category })
                ++ inst :: after } :: cafter,
          some (config.LintErrorf id c.Category inst.Id inst.ControllerCategory c.Category))) := by
  induction controllers with
  | nil => exact Or.inl ⟨by simp, rfl⟩
  | cons c rest ih =>
      rcases LintInstances_spec id c c.Instances with
        ⟨hall, hinst⟩ | ⟨before, inst, after, hsplit, hbefore, hbad, hinst⟩
      · rcases ih with ⟨hrestall, hrest⟩ |
          ⟨cbefore, c1, cafter, before, inst, after, hcsplit, hsplit, hcbefore, hbefore, hbad,
            hrest⟩
        · left
          refine ⟨?_, ?_⟩
          · intro c1 hc1
            rcases List.mem_cons.mp hc1 with h | h
            · rw [h]; exact hall
            · exact hrestall c1 h
          · simp [config.LintControllers, hinst, hrest, propagated]
        · right
          refine ⟨c :: cbefore, c1, cafter, before, inst, after, by simp [hcsplit], hsplit,
            ?_, hbefore, hbad, ?_⟩
          · intro c2 hc2
            rcases List.mem_cons.mp hc2 with h | h
            · rw [h]; exact hall
            · exact hcbefore c2 h
          · simp [config.LintControllers, hinst, hrest, propagated]
      · right
        refine ⟨[], c, rest, before, inst, after, rfl, hsplit, by simp, hbefore, hbad, ?_⟩
        simp [config.LintControllers, hinst]

/-- C4. For every service: `Lint` returns an error if and only if some controller has an
instance whose `ControllerCategory` is non-empty and different from the controller's
`Category`; and then the error is the one of the first such instance, in controller order and
then instance order (no earlier controller and no earlier instance of the same controller has
such an instance), and its message contains the service `Id`, the controller's `Category` and
the `ControllerCategory` declared by the instance. -/
theorem Lint_conflicting_category_fails (s : config.Service) :
    ((∃ c ∈ s.Controllers, ∃ inst ∈ c.Instances, Conflicts c inst) ↔ s.Lint.2 ≠ none) ∧
    ((∃ c ∈ s.Controllers, ∃ inst ∈ c.Instances, Conflicts c inst) →
      ∃ cbefore c cafter before inst after err,
        s.Controllers = cbefore ++ c :: cafter ∧ c.Instances = before ++ inst :: after ∧
        (∀ c1 ∈ cbefore, ∀ i ∈ c1.Instances, ¬ Conflicts c1 i) ∧
        (∀ i ∈ before, ¬ Conflicts c i) ∧ Conflicts c inst ∧
        s.Lint.2 = some err ∧
        err = config.LintErrorf s.Id c.Category inst.Id inst.ControllerCategory c.Category ∧
        Contains err.Error s.Id ∧ Contains err.Error c.Category ∧
        Contains err.Error inst.ControllerCategory) := by
  have hspec := LintControllers_spec s.Id s.Controllers
  have hsecond : (∃ c ∈ s.Controllers, ∃ inst ∈ c.Instances, Conflicts c inst) →
      ∃ cbefore c cafter before inst after err,
        s.Controllers = cbefore ++ c :: cafter ∧ c.Instances = before ++ inst :: after ∧
        (∀ c1 ∈ cbefore, ∀ i ∈ c1.Instances, ¬ Conflicts c1 i) ∧
        (∀ i ∈ before, ¬ Conflicts c i) ∧ Conflicts c inst ∧
        s.Lint.2 = some err ∧
        err = config.LintErrorf s.Id c.Category inst.Id inst.ControllerCategory c.Category ∧
        Contains err.Error s.Id ∧ Contains err.Error c.Category ∧
        Contains err.Error inst.ControllerCategory := by
    rintro ⟨c0, hc0, inst0, hinst0, hbad0⟩
    rcases hspec with ⟨hall, _⟩ |
      ⟨cbefore, c, cafter, before, inst, after, hcsplit, hsplit, hcbefore, hbefore, hbad, hlint⟩
    · exact absurd hbad0 (hall c0 hc0 inst0 hinst0)
    · have hcontains := LintErrorf_contains s.Id c.Category inst.Id inst.ControllerCategory
        c.Category
      refine ⟨cbefore, c, cafter, before, inst, after, _, hcsplit, hsplit, hcbefore, hbefore,
        hbad, ?_, rfl, hcontains.1, hcontains.2.1, hcontains.2.2⟩
      simp [config.Service.Lint, hlint]
  refine ⟨⟨?_, ?_⟩, hsecond⟩
  · intro hex
    obtain ⟨_, _, _, _, _, _, err, _, _, _, _, _, herr, _⟩ := hsecond hex
    rw [herr]
    simp
  · intro herr
    rcases hspec with ⟨_, hlint⟩ |
      ⟨cbefore, c, cafter, before, inst, after, hcsplit, hsplit, _, _, hbad, _⟩
    · exfalso
      apply herr
      simp [config.Service.Lint, hlint]
    · exact ⟨c, by simp [hcsplit], inst, by simp [hsplit], hbad⟩

/-- On `conflictService`, whose controller `main` has an instance declaring `zz`, `Lint` fails
with an error naming the service, `main` and `zz`. -/
theorem Lint_conflicting_category_fails_witness :
    ∃ cbefore c cafter before inst after err,
      conflictService.Controllers = cbefore ++ c :: cafter ∧
      c.Instances = before ++ inst :: after ∧
      (∀ c1 ∈ cbefore, ∀ i ∈ c1.Instances, ¬ Conflicts c1 i) ∧
      (∀ i ∈ before, ¬ Conflicts c i) ∧ Conflicts c inst ∧
      conflictService.Lint.2 = some err ∧
      err = config.LintErrorf conflictService.Id c.Category inst.Id inst.ControllerCategory
        c.Category ∧
      Contains err.Error conflictService.Id ∧ Contains err.Error c.Category ∧
      Contains err.Error inst.ControllerCategory :=
  (Lint_conflicting_category_fails conflictService).2
    ⟨⟨"Replier", "main",
        [⟨1, "a", "", []⟩, ⟨2, "b", "main", []⟩, ⟨3, "c", "zz", []⟩, ⟨4, "d", "", []⟩], []⟩,
      by decide, ⟨3, "c", "zz", []⟩, by decide, by decide⟩

/-- C5. For every service in which no instance declares a category that differs from the
category of its controller, `Lint` succeeds, and the service afterwards is the service before
in which every instance of every controller carries the `Category` of its controller: an
instance that declared none has received it, one that matched keeps it, and the number and
order of the controllers and of their instances and every other field are unchanged. -/
theorem Lint_propagates_category (s : config.Service)
    (h : ∀ c ∈ s.Controllers, ∀ inst ∈ c.Instances,
      inst.ControllerCategory = "" ∨ inst.ControllerCategory = c.Category) :
    s.Lint = ({ s with Controllers := s.Controllers.map propagated }, none) ∧
    (∀ c ∈ s.Lint.1.Controllers, ∀ inst ∈ c.Instances, inst.ControllerCategory = c.Category) ∧
    s.Lint.1.Controllers.length = s.Controllers.length ∧
    (∀ (i : Nat) (c : service.Controller), s.Controllers[i]? = some c →
      ∃ c1, s.Lint.1.Controllers[i]? = some c1 ∧
        c1.Type_ = c.Type_ ∧ c1.Category = c.Category ∧ c1.Rest = c.Rest ∧
        c1.Instances.length = c.Instances.length ∧
        ∀ (j : Nat) (inst : service.Instance), c.Instances[j]? = some inst →
          c1.Instances[j]? = some { inst with ControllerCategory := c.Category }) := by
  have hlint : s.Lint = ({ s with Controllers := s.Controllers.map propagated }, none) := by
    rcases LintControllers_spec s.Id s.Controllers with ⟨_, hlint⟩ |
      ⟨cbefore, c, cafter, before, inst, after, hcsplit, hsplit, _, _, hbad, _⟩
    · simp [config.Service.Lint, hlint]
    · exfalso
      rcases h c (by simp [hcsplit]) inst (by simp [hsplit]) with h1 | h1
      · exact hbad.1 h1
      · exact hbad.2 h1
  refine ⟨hlint, ?_, ?_, ?_⟩
  · rw [hlint]
    intro c hc inst hinst
    simp only [List.mem_map] at hc
    obtain ⟨c0, _, hc0⟩ := hc
    rw [← hc0] at hinst ⊢
    simp only [propagated, List.mem_map] at hinst
    obtain ⟨inst0, _, hinst0⟩ := hinst
    rw [← hinst0]
    rfl
  · rw [hlint]
    simp
  · rw [hlint]
    intro i c hc
    refine ⟨propagated c, by simp [List.getElem?_map, hc], rfl, rfl, rfl, by simp [propagated],
      ?_⟩
    intro j inst hj
    simp [propagated, List.getElem?_map, hj]

/-- On `plainService`, where one instance declares no category and the other declares the
category of its controller, `Lint` succeeds and both instances carry `main` afterwards. -/
theorem Lint_propagates_category_witness :
    plainService.Lint = ({ plainService with
        Controllers := plainService.Controllers.map propagated }, none) ∧
    (∀ c ∈ plainService.Lint.1.Controllers, ∀ inst ∈ c.Instances,
      inst.ControllerCategory = c.Category) :=
  have h := Lint_propagates_category plainService (by decide)
  ⟨h.1, h.2.1⟩

/-! ### Lookups -/

theorem GetControllersLoop_empty (name : String) (controllers : List service.Controller)
    (cap count : Nat) :
    ((∃ c ∈ controllers, c.Category = name) ∧
      config.Service.GetControllersLoop name controllers ⟨[], cap⟩ count = none) ∨
    ((∀ c ∈ controllers, c.Category ≠ name) ∧
      config.Service.GetControllersLoop name controllers ⟨[], cap⟩ count
        = some (⟨[], cap⟩, count)) := by
  induction controllers with
  | nil => exact Or.inr ⟨by simp, rfl⟩
  | cons c rest ih =>
      by_cases hc : c.Category = name
      · left
        refine ⟨⟨c, by simp, hc⟩, ?_⟩
        simp [config.Service.GetControllersLoop, hc, Slice.setIndex, Slice.len]
      · rcases ih with ⟨⟨c1, hmem, hc1⟩, hloop⟩ | ⟨hall, hloop⟩
        · left
          refine ⟨⟨c1, List.mem_cons_of_mem _ hmem, hc1⟩, ?_⟩
          simp [config.Service.GetControllersLoop, hc, hloop]
        · right
          refine ⟨?_, ?_⟩
          · intro c1 hc1
            rcases List.mem_cons.mp hc1 with h | h
            · rw [h]; exact hc
            · exact hall c1 h
          · simp [config.Service.GetControllersLoop, hc, hloop]

/-- C6 fails on the code: `GetControllers` never returns a list. For every service and every
name, when at least one controller has `Category` equal to the name the index assignment into
the slice of length zero panics, and when none has, the call returns an error. -/
theorem GetControllers_panics_on_match (s : config.Service) (name : String) :
    ((∃ c ∈ s.Controllers, c.Category = name) →
      s.GetControllers name = Result.panic "index out of range") ∧
    ((∀ c ∈ s.Controllers, c.Category ≠ name) →
      s.GetControllers name = Result.err (GoError.new ("no '" ++ name ++ "' controlelr config"))) ∧
    (∀ controllers, s.GetControllers name ≠ Result.ok controllers) := by
  have hloop := GetControllersLoop_empty name s.Controllers s.Controllers.length 0
  refine ⟨?_, ?_, ?_⟩
  · rintro ⟨c, hmem, hc⟩
    rcases hloop with ⟨_, hnone⟩ | ⟨hall, _⟩
    · simp [config.Service.GetControllers, Slice.make0, hnone]
    · exact absurd hc (hall c hmem)
  · intro hall
    rcases hloop with ⟨⟨c, hmem, hc⟩, _⟩ | ⟨_, hsome⟩
    · exact absurd hc (hall c hmem)
    · simp [config.Service.GetControllers, Slice.make0, hsome, Slice.len]
  · intro controllers
    rcases hloop with ⟨_, hnone⟩ | ⟨_, hsome⟩
    · simp [config.Service.GetControllers, Slice.make0, hnone]
    · simp [config.Service.GetControllers, Slice.make0, hsome, Slice.len]

/-- On `plainService`, which has two controllers of category `main`, `GetControllers("main")`
panics. -/
theorem GetControllers_panics_on_match_witness :
    plainService.GetControllers "main" = Result.panic "index out of range" :=
  (GetControllers_panics_on_match plainService "main").1
    ⟨⟨"Replier", "main", [⟨1, "a", "", []⟩, ⟨2, "b", "main", []⟩], []⟩, by decide, rfl⟩

theorem GetControllerLoop_spec (name : String) (controllers : List service.Controller) :
    ((∀ c ∈ controllers, c.Category ≠ name) ∧
      config.Service.GetControllerLoop name controllers = none) ∨
    (∃ before c after, controllers = before ++ c :: after ∧ c.Category = name ∧
      (∀ c1 ∈ before, c1.Category ≠ name) ∧
      config.Service.GetControllerLoop name controllers = some c) := by
  induction controllers with
  | nil => exact Or.inl ⟨by simp, rfl⟩
  | cons c rest ih =>
      by_cases hc : c.Category = name
      · right
        exact ⟨[], c, rest, rfl, hc, by simp, by simp [config.Service.GetControllerLoop, hc]⟩
      · rcases ih with ⟨hall, hloop⟩ | ⟨before, c1, after, hsplit, hc1, hbefore, hloop⟩
        · left
          refine ⟨?_, by simp [config.Service.GetControllerLoop, hc, hloop]⟩
          intro c1 hc1
          rcases List.mem_cons.mp hc1 with h | h
          · rw [h]; exact hc
          · exact hall c1 h
        · right
          refine ⟨c :: before, c1, after, by simp [hsplit], hc1, ?_,
            by simp [config.Service.GetControllerLoop, hc, hloop]⟩
          intro c2 hc2
          rcases List.mem_cons.mp hc2 with h | h
          · rw [h]; exact hc
          · exact hbefore c2 h

/-- Two splittings of a list at the first element satisfying a property are the same. -/
theorem first_split_unique {α : Type} (P : α → Prop) :
    ∀ (before1 before2 after1 after2 : List α) (x1 x2 : α),
      before1 ++ x1 :: after1 = before2 ++ x2 :: after2 →
      P x1 → P x2 → (∀ y ∈ before1, ¬ P y) → (∀ y ∈ before2, ¬ P y) →
      before1 = before2 ∧ x1 = x2 ∧ after1 = after2 := by
  intro before1
  induction before1 with
  | nil =>
      intro before2 after1 after2 x1 x2 heq h1 h2 _ hb2
      cases before2 with
      | nil =>
          simp only [List.nil_append, List.cons.injEq] at heq
          exact ⟨rfl, heq.1, heq.2⟩
      | cons y ys =>
          simp only [List.nil_append, List.cons_append, List.cons.injEq] at heq
          exact absurd (heq.1 ▸ h1) (hb2 y (by simp))
  | cons z zs ih =>
      intro before2 after1 after2 x1 x2 heq h1 h2 hb1 hb2
      cases before2 with
      | nil =>
          simp only [List.nil_append, List.cons_append, List.cons.injEq] at heq
          exact absurd (heq.1 ▸ h2) (hb1 z (by simp))
      | cons y ys =>
          simp only [List.cons_append, List.cons.injEq] at heq
          obtain ⟨hb, hx, ha⟩ := ih ys after1 after2 x1 x2 heq.2 h1 h2
            (fun w hw => hb1 w (List.mem_cons_of_mem _ hw))
            (fun w hw => hb2 w (List.mem_cons_of_mem _ hw))
          exact ⟨by rw [heq.1, hb], hx, ha⟩

/-- C7. For every service and every name, `GetController(name)` returns an error if and only
if no controller of the service has `Category` equal to the name; otherwise it returns the
first controller (lowest index) whose `Category` equals the name. The method writes nothing:
its embedding is a function of the service that returns no new service. -/
theorem GetController_first_match (s : config.Service) (name : String) :
    ((∃ err, s.GetController name = Except.error err) ↔
      ∀ c ∈ s.Controllers, c.Category ≠ name) ∧
    ((∃ c ∈ s.Controllers, c.Category = name) → ∃ c, s.GetController name = Except.ok c) ∧
    (∀ c, s.GetController name = Except.ok c ↔
      ∃ before after, s.Controllers = before ++ c :: after ∧ c.Category = name ∧
        ∀ c1 ∈ before, c1.Category ≠ name) := by
  have hspec := GetControllerLoop_spec name s.Controllers
  refine ⟨⟨?_, ?_⟩, ?_, ?_⟩
  · rintro ⟨err, herr⟩
    rcases hspec with ⟨hall, _⟩ | ⟨_, c, _, _, _, _, hloop⟩
    · exact hall
    · simp [config.Service.GetController, hloop] at herr
  · intro hall
    rcases hspec with ⟨_, hloop⟩ | ⟨before, c, after, hsplit, hc, _, _⟩
    · unfold config.Service.GetController
      rw [hloop]
      exact ⟨_, rfl⟩
    · exact absurd hc (hall c (by simp [hsplit]))
  · rintro ⟨c, hmem, hc⟩
    rcases hspec with ⟨hall, _⟩ | ⟨_, c1, _, _, _, _, hloop⟩
    · exact absurd hc (hall c hmem)
    · exact ⟨c1, by simp [config.Service.GetController, hloop]⟩
  · intro c
    constructor
    · intro hok
      rcases hspec with ⟨_, hloop⟩ | ⟨before, c1, after, hsplit, hc1, hbefore, hloop⟩
      · simp [config.Service.GetController, hloop] at hok
      · simp only [config.Service.GetController, hloop, Except.ok.injEq] at hok
        rw [← hok]
        exact ⟨before, after, hsplit, hc1, hbefore⟩
    · rintro ⟨before, after, hsplit, hc, hbefore⟩
      rcases hspec with ⟨hall, _⟩ | ⟨before1, c1, after1, hsplit1, hc1, hbefore1, hloop⟩
      · exact absurd hc (hall c (by simp [hsplit]))
      · have huniq := first_split_unique (fun x : service.Controller => x.Category = name)
          before1 before after1 after c1 c (by rw [← hsplit1, hsplit]) hc1 hc hbefore1 hbefore
        simp [config.Service.GetController, hloop, huniq.2.1]

/-- On `plainService`, `GetController("main")` returns the first of the two controllers of
category `main`. -/
theorem GetController_first_match_witness :
    plainService.GetController "main"
      = Except.ok ⟨"Replier", "main", [⟨1, "a", "", []⟩, ⟨2, "b", "main", []⟩], []⟩ :=
  ((GetController_first_match plainService "main").2.2 _).mpr
    ⟨[], [⟨"Pusher", "main", [⟨3, "c", "", []⟩], []⟩, ⟨"SyncReplier", "source", [], []⟩],
      rfl, rfl, by simp⟩

theorem firstCell_none {α : Type} (p : α → Bool) (l : List α)
    (h : ∀ x ∈ l, p x = false) : firstCell p l = none := by
  induction l with
  | nil => rfl
  | cons x xs ih =>
      have hx : p x = false := h x (by simp)
      have hxs := ih (fun y hy => h y (List.mem_cons_of_mem _ hy))
      simp [firstCell, hx, hxs]

theorem firstCell_of_split {α : Type} (p : α → Bool) (before : List α) (x : α)
    (after : List α) (hx : p x = true) (hb : ∀ y ∈ before, p y = false) :
    firstCell p (before ++ x :: after) = some before.length := by
  induction before with
  | nil => simp [firstCell, hx]
  | cons y ys ih =>
      have hy : p y = false := hb y (by simp)
      have hys := ih (fun z hz => hb z (List.mem_cons_of_mem _ hz))
      simp [firstCell, hy, hys]

theorem split_or_none {α : Type} (p : α → Bool) (l : List α) :
    (∀ x ∈ l, p x = false) ∨
    (∃ before x after, l = before ++ x :: after ∧ p x = true ∧ ∀ y ∈ before, p y = false) := by
  induction l with
  | nil => exact Or.inl (by simp)
  | cons x xs ih =>
      cases hx : p x with
      | true => exact Or.inr ⟨[], x, xs, rfl, hx, by simp⟩
      | false =>
          rcases ih with hall | ⟨before, y, after, hsplit, hy, hbefore⟩
          · left
            intro z hz
            rcases List.mem_cons.mp hz with h | h
            · rw [h]; exact hx
            · exact hall z h
          · right
            refine ⟨x :: before, y, after, by simp [hsplit], hy, ?_⟩
            intro z hz
            rcases List.mem_cons.mp hz with h | h
            · rw [h]; exact hx
            · exact hbefore z h

theorem getElem?_split {α : Type} (before : List α) (x : α) (after : List α) :
    (before ++ x :: after)[before.length]? = some x := by
  induction before with
  | nil => simp
  | cons z zs ih => simpa using ih

theorem set_split {α : Type} (before : List α) (x y : α) (after : List α) :
    (before ++ x :: after).set before.length y = before ++ y :: after := by
  induction before with
  | nil => rfl
  | cons z zs ih => simp [List.set, ih]

theorem GetExtension_of_none (s : config.Service) (url : String)
    (h : ∀ e ∈ s.Extensions, e.Url ≠ url) :
    s.GetExtensionCell url = none ∧ s.GetExtension url = none := by
  have hcell : s.GetExtensionCell url = none :=
    firstCell_none _ _ (fun e he => by simpa using h e he)
  exact ⟨hcell, by simp [config.Service.GetExtension, hcell]⟩

theorem GetExtension_of_split (s : config.Service) (url : String)
    (before : List service.Extension) (e : service.Extension) (after : List service.Extension)
    (hsplit : s.Extensions = before ++ e :: after) (he : e.Url = url)
    (hbefore : ∀ y ∈ before, y.Url ≠ url) :
    s.GetExtensionCell url = some before.length ∧ s.GetExtension url = some e := by
  have hcell : s.GetExtensionCell url = some before.length := by
    unfold config.Service.GetExtensionCell
    rw [hsplit]
    exact firstCell_of_split _ before e after (by simpa using he)
      (fun y hy => by simpa using hbefore y hy)
  refine ⟨hcell, ?_⟩
  simp only [config.Service.GetExtension, hcell]
  rw [hsplit]
  exact getElem?_split before e after

theorem GetProxy_of_none (s : config.Service) (url : String)
    (h : ∀ p ∈ s.Proxies, p.Url ≠ url) :
    s.GetProxyCell url = none ∧ s.GetProxy url = none := by
  have hcell : s.GetProxyCell url = none :=
    firstCell_none _ _ (fun p hp => by simpa using h p hp)
  exact ⟨hcell, by simp [config.Service.GetProxy, hcell]⟩

theorem GetProxy_of_split (s : config.Service) (url : String)
    (before : List service.Proxy) (p : service.Proxy) (after : List service.Proxy)
    (hsplit : s.Proxies = before ++ p :: after) (hp : p.Url = url)
    (hbefore : ∀ y ∈ before, y.Url ≠ url) :
    s.GetProxyCell url = some before.length ∧ s.GetProxy url = some p := by
  have hcell : s.GetProxyCell url = some before.length := by
    unfold config.Service.GetProxyCell
    rw [hsplit]
    exact firstCell_of_split _ before p after (by simpa using hp)
      (fun y hy => by simpa using hbefore y hy)
  refine ⟨hcell, ?_⟩
  simp only [config.Service.GetProxy, hcell]
  rw [hsplit]
  exact getElem?_split before p after

theorem extensions_split_or_none (l : List service.Extension) (url : String) :
    (∀ e ∈ l, e.Url ≠ url) ∨
    (∃ before e after, l = before ++ e :: after ∧ e.Url = url ∧ ∀ y ∈ before, y.Url ≠ url) := by
  rcases split_or_none (fun e : service.Extension => e.Url == url) l with
    hall | ⟨before, e, after, hsplit, he, hbefore⟩
  · exact Or.inl (fun e hmem => by simpa using hall e hmem)
  · exact Or.inr ⟨before, e, after, hsplit, by simpa using he,
      fun y hy => by simpa using hbefore y hy⟩

theorem proxies_split_or_none (l : List service.Proxy) (url : String) :
    (∀ p ∈ l, p.Url ≠ url) ∨
    (∃ before p after, l = before ++ p :: after ∧ p.Url = url ∧ ∀ y ∈ before, y.Url ≠ url) := by
  rcases split_or_none (fun p : service.Proxy => p.Url == url) l with
    hall | ⟨before, p, after, hsplit, hp, hbefore⟩
  · exact Or.inl (fun p hmem => by simpa using hall p hmem)
  · exact Or.inr ⟨before, p, after, hsplit, by simpa using hp,
      fun y hy => by simpa using hbefore y hy⟩

/-- C8. For every service and every url, `GetExtension(url)` returns `nil` (the result type
has no error) exactly when no extension of the service has `Url` equal to the url, and
otherwise it returns the first entry of `Extensions` whose `Url` equals the url; the same holds
for `GetProxy(url)` on `Proxies`. -/
theorem GetExtension_GetProxy_absent_or_first (s : config.Service) (url : String) :
    (s.GetExtension url = none ↔ ∀ e ∈ s.Extensions, e.Url ≠ url) ∧
    (∀ e, s.GetExtension url = some e ↔
      ∃ before after, s.Extensions = before ++ e :: after ∧ e.Url = url ∧
        ∀ y ∈ before, y.Url ≠ url) ∧
    (s.GetProxy url = none ↔ ∀ p ∈ s.Proxies, p.Url ≠ url) ∧
    (∀ p, s.GetProxy url = some p ↔
      ∃ before after, s.Proxies = before ++ p :: after ∧ p.Url = url ∧
        ∀ y ∈ before, y.Url ≠ url) := by
  refine ⟨⟨?_, ?_⟩, ?_, ⟨?_, ?_⟩, ?_⟩
  · intro hnone
    rcases extensions_split_or_none s.Extensions url with
      hall | ⟨before, e, after, hsplit, he, hbefore⟩
    · exact hall
    · rw [(GetExtension_of_split s url before e after hsplit he hbefore).2] at hnone
      exact absurd hnone (by simp)
  · intro hall
    exact (GetExtension_of_none s url hall).2
  · intro e
    constructor
    · intro hsome
      rcases extensions_split_or_none s.Extensions url with
        hall | ⟨before, e1, after, hsplit, he1, hbefore⟩
      · rw [(GetExtension_of_none s url hall).2] at hsome
        exact absurd hsome (by simp)
      · rw [(GetExtension_of_split s url before e1 after hsplit he1 hbefore).2] at hsome
        injection hsome with hsome
        rw [← hsome]
        exact ⟨before, after, hsplit, he1, hbefore⟩
    · rintro ⟨before, after, hsplit, he, hbefore⟩
      exact (GetExtension_of_split s url before e after hsplit he hbefore).2
  · intro hnone
    rcases proxies_split_or_none s.Proxies url with
      hall | ⟨before, p, after, hsplit, hp, hbefore⟩
    · exact hall
    · rw [(GetProxy_of_split s url before p after hsplit hp hbefore).2] at hnone
      exact absurd hnone (by simp)
  · intro hall
    exact (GetProxy_of_none s url hall).2
  · intro p
    constructor
    · intro hsome
      rcases proxies_split_or_none s.Proxies url with
        hall | ⟨before, p1, after, hsplit, hp1, hbefore⟩
      · rw [(GetProxy_of_none s url hall).2] at hsome
        exact absurd hsome (by simp)
      · rw [(GetProxy_of_split s url before p1 after hsplit hp1 hbefore).2] at hsome
        injection hsome with hsome
        rw [← hsome]
        exact ⟨before, after, hsplit, hp1, hbefore⟩
    · rintro ⟨before, after, hsplit, hp, hbefore⟩
      exact (GetProxy_of_split s url before p after hsplit hp hbefore).2

/-- On `plainService`, which holds two extensions with the url of `db`, `GetExtension` returns
the first one, and it returns `nil` for a url that no extension has. -/
theorem GetExtension_GetProxy_absent_or_first_witness :
    plainService.GetExtension "github.com/ahmetson/db"
      = some ⟨"github.com/ahmetson/db", 4000, []⟩ ∧
    plainService.GetExtension "github.com/ahmetson/web" = none :=
  ⟨((GetExtension_GetProxy_absent_or_first plainService "github.com/ahmetson/db").2.1 _).mpr
      ⟨[], [⟨"github.com/ahmetson/auth", 4001, []⟩, ⟨"github.com/ahmetson/db", 4002, []⟩],
        rfl, rfl, by simp⟩,
    (GetExtension_GetProxy_absent_or_first plainService "github.com/ahmetson/web").1.mpr
      (by decide)⟩

/-! ### Setters -/

theorem SetExtension_spec (s : config.Service) (e : service.Extension) :
    ((∀ x ∈ s.Extensions, x.Url ≠ e.Url) →
      s.SetExtension e = { s with Extensions := s.Extensions ++ [e] }) ∧
    (∀ before x after, s.Extensions = before ++ x :: after → x.Url = e.Url →
      (∀ y ∈ before, y.Url ≠ e.Url) →
      s.SetExtension e = { s with Extensions := before ++ e :: after }) := by
  refine ⟨?_, ?_⟩
  · intro hall
    simp [config.Service.SetExtension, (GetExtension_of_none s e.Url hall).1]
  · intro before x after hsplit hx hbefore
    simp only [config.Service.SetExtension,
      (GetExtension_of_split s e.Url before x after hsplit hx hbefore).1]
    rw [hsplit, set_split]

theorem SetProxy_spec (s : config.Service) (p : service.Proxy) :
    ((∀ x ∈ s.Proxies, x.Url ≠ p.Url) →
      s.SetProxy p = { s with Proxies := s.Proxies ++ [p] }) ∧
    (∀ before x after, s.Proxies = before ++ x :: after → x.Url = p.Url →
      (∀ y ∈ before, y.Url ≠ p.Url) →
      s.SetProxy p = { s with Proxies := before ++ p :: after }) := by
  refine ⟨?_, ?_⟩
  · intro hall
    simp [config.Service.SetProxy, (GetProxy_of_none s p.Url hall).1]
  · intro before x after hsplit hx hbefore
    simp only [config.Service.SetProxy,
      (GetProxy_of_split s p.Url before x after hsplit hx hbefore).1]
    rw [hsplit, set_split]

/-- C9. For every service and every extension `e`, `SetExtension(e)` is insert-or-overwrite
by `Url`. If no extension has the url of `e`, the extension list becomes the old list with `e`
appended. If one has, then with the list split at the first entry with that url, that entry
now holds the value of `e` and the entries before and after it are unchanged, so the list
keeps its length and order. In both cases `GetExtension(e.Url)` afterwards returns `e`, and no
other field of the service changes. The same holds for `SetProxy` and `GetProxy` on the proxy
list. -/
theorem SetExtension_SetProxy_insert_or_overwrite
    (s : config.Service) (e : service.Extension) (p : service.Proxy) :
    (((∀ x ∈ s.Extensions, x.Url ≠ e.Url) →
        (s.SetExtension e).Extensions = s.Extensions ++ [e]) ∧
      (∀ before x after, s.Extensions = before ++ x :: after → x.Url = e.Url →
        (∀ y ∈ before, y.Url ≠ e.Url) →
        (s.SetExtension e).Extensions = before ++ e :: after) ∧
      ((∃ x ∈ s.Extensions, x.Url = e.Url) →
        (s.SetExtension e).Extensions.length = s.Extensions.length) ∧
      (s.SetExtension e).GetExtension e.Url = some e ∧
      s.SetExtension e = { s with Extensions := (s.SetExtension e).Extensions }) ∧
    (((∀ x ∈ s.Proxies, x.Url ≠ p.Url) →
        (s.SetProxy p).Proxies = s.Proxies ++ [p]) ∧
      (∀ before x after, s.Proxies = before ++ x :: after → x.Url = p.Url →
        (∀ y ∈ before, y.Url ≠ p.Url) →
        (s.SetProxy p).Proxies = before ++ p :: after) ∧
      ((∃ x ∈ s.Proxies, x.Url = p.Url) →
        (s.SetProxy p).Proxies.length = s.Proxies.length) ∧
      (s.SetProxy p).GetProxy p.Url = some p ∧
      s.SetProxy p = { s with Proxies := (s.SetProxy p).Proxies }) := by
  have hext := SetExtension_spec s e
  have hproxy := SetProxy_spec s p
  refine ⟨⟨?_, ?_, ?_, ?_, ?_⟩, ⟨?_, ?_, ?_, ?_, ?_⟩⟩
  · intro hall
    rw [hext.1 hall]
  · intro before x after hsplit hx hbefore
    rw [hext.2 before x after hsplit hx hbefore]
  · rintro ⟨x0, hmem, hx0⟩
    rcases extensions_split_or_none s.Extensions e.Url with
      hall | ⟨before, x, after, hsplit, hx, hbefore⟩
    · exact absurd hx0 (hall x0 hmem)
    · rw [hext.2 before x after hsplit hx hbefore, hsplit]
      simp
  · rcases extensions_split_or_none s.Extensions e.Url with
      hall | ⟨before, x, after, hsplit, hx, hbefore⟩
    · rw [hext.1 hall]
      exact (GetExtension_of_split _ e.Url s.Extensions e [] rfl rfl hall).2
    · rw [hext.2 before x after hsplit hx hbefore]
      exact (GetExtension_of_split _ e.Url before e after rfl rfl hbefore).2
  · rcases extensions_split_or_none s.Extensions e.Url with
      hall | ⟨before, x, after, hsplit, hx, hbefore⟩
    · rw [hext.1 hall]
    · rw [hext.2 before x after hsplit hx hbefore]
  · intro hall
    rw [hproxy.1 hall]
  · intro before x after hsplit hx hbefore
    rw [hproxy.2 before x after hsplit hx hbefore]
  · rintro ⟨x0, hmem, hx0⟩
    rcases proxies_split_or_none s.Proxies p.Url with
      hall | ⟨before, x, after, hsplit, hx, hbefore⟩
    · exact absurd hx0 (hall x0 hmem)
    · rw [hproxy.2 before x after hsplit hx hbefore, hsplit]
      simp
  · rcases proxies_split_or_none s.Proxies p.Url with
      hall | ⟨before, x, after, hsplit, hx, hbefore⟩
    · rw [hproxy.1 hall]
      exact (GetProxy_of_split _ p.Url s.Proxies p [] rfl rfl hall).2
    · rw [hproxy.2 before x after hsplit hx hbefore]
      exact (GetProxy_of_split _ p.Url before p after rfl rfl hbefore).2
  · rcases proxies_split_or_none s.Proxies p.Url with
      hall | ⟨before, x, after, hsplit, hx, hbefore⟩
    · rw [hproxy.1 hall]
    · rw [hproxy.2 before x after hsplit hx hbefore]

/-- On `plainService`: setting an extension with the url of `auth` overwrites the second of the
three extensions in place, and setting a proxy with a new url appends it. -/
theorem SetExtension_SetProxy_insert_or_overwrite_witness :
    (plainService.SetExtension ⟨"github.com/ahmetson/auth", 5000, []⟩).Extensions
      = [⟨"github.com/ahmetson/db", 4000, []⟩, ⟨"github.com/ahmetson/auth", 5000, []⟩,
          ⟨"github.com/ahmetson/db", 4002, []⟩] ∧
    (plainService.SetProxy ⟨"github.com/ahmetson/web", []⟩).Proxies
      = [⟨"github.com/ahmetson/proxy", [("port", Value.uint 81)]⟩,
          ⟨"github.com/ahmetson/web", []⟩] :=
  have h := SetExtension_SetProxy_insert_or_overwrite plainService
    ⟨"github.com/ahmetson/auth", 5000, []⟩ ⟨"github.com/ahmetson/web", []⟩
  ⟨h.1.2.1 [⟨"github.com/ahmetson/db", 4000, []⟩] ⟨"github.com/ahmetson/auth", 4001, []⟩
      [⟨"github.com/ahmetson/db", 4002, []⟩] rfl rfl (by decide),
    h.2.1 (by decide)⟩

/-! ### Preparation -/

theorem ValidateControllerTypes_spec (controllers : List service.Controller) :
    (config.Service.ValidateControllerTypes controllers = none ↔
      ∀ c ∈ controllers, c.Type_ ∈ service.knownControllerTypes) := by
  induction controllers with
  | nil => simp [config.Service.ValidateControllerTypes]
  | cons c rest ih =>
      by_cases hc : c.Type_ ∈ service.knownControllerTypes
      · simp [config.Service.ValidateControllerTypes, service.ValidateControllerType, hc, ih]
      · simp [config.Service.ValidateControllerTypes, service.ValidateControllerType, hc]

/-- C10. For every service, `PrepareService` runs `ValidateTypes` and then `Lint`: it succeeds
if and only if both succeed, and when `ValidateTypes` succeeds the service afterwards is the
one `Lint` leaves and an error of `Lint` is returned wrapped under `service.Lint: `.
`ValidateTypes` succeeds exactly when the type of the service and the type of every controller
are in the known enumerations; if one of them is outside, `PrepareService` returns the error
of `ValidateTypes`, wrapped under `service.ValidateTypes: `, and the service is unchanged:
`Lint` has not run and no instance category is modified. -/
theorem PrepareService_validates_then_lints (s : config.Service) :
    (s.PrepareService.2 = none ↔ s.ValidateTypes = none ∧ s.Lint.2 = none) ∧
    (s.ValidateTypes = none ↔
      s.Type_ ∈ config.knownTypes ∧
        ∀ c ∈ s.Controllers, c.Type_ ∈ service.knownControllerTypes) ∧
    ((s.Type_ ∉ config.knownTypes ∨
        ∃ c ∈ s.Controllers, c.Type_ ∉ service.knownControllerTypes) →
      ∃ err, s.ValidateTypes = some err ∧
        s.PrepareService =
          (s, some (GoError.wrap ("service.ValidateTypes: " ++ err.Error) err))) ∧
    (s.ValidateTypes = none →
      s.PrepareService.1 = s.Lint.1 ∧
      ∀ err, s.Lint.2 = some err →
        s.PrepareService.2 = some (GoError.wrap ("service.Lint: " ++ err.Error) err)) := by
  have hvalid : s.ValidateTypes = none ↔
      s.Type_ ∈ config.knownTypes ∧
        ∀ c ∈ s.Controllers, c.Type_ ∈ service.knownControllerTypes := by
    by_cases ht : s.Type_ ∈ config.knownTypes
    · simp [config.Service.ValidateTypes, config.ValidateServiceType, ht,
        ValidateControllerTypes_spec]
    · simp [config.Service.ValidateTypes, config.ValidateServiceType, ht]
  refine ⟨?_, hvalid, ?_, ?_⟩
  · cases hv : s.ValidateTypes with
    | some err => simp [config.Service.PrepareService, hv]
    | none =>
        cases hl : s.Lint with
        | mk s1 lintErr =>
            cases lintErr with
            | none => simp [config.Service.PrepareService, hv, hl]
            | some err => simp [config.Service.PrepareService, hv, hl]
  · intro hout
    cases hv : s.ValidateTypes with
    | some err => exact ⟨err, rfl, by simp [config.Service.PrepareService, hv, Errorf_w]⟩
    | none =>
        exfalso
        obtain ⟨ht, hall⟩ := hvalid.mp hv
        rcases hout with h | ⟨c, hmem, hc⟩
        · exact h ht
        · exact hc (hall c hmem)
  · intro hv
    cases hl : s.Lint with
    | mk s1 lintErr =>
        cases lintErr with
        | none => simp [config.Service.PrepareService, hv, hl]
        | some err => simp [config.Service.PrepareService, hv, hl, Errorf_w]

/-- On `unknownTypeService`, whose second controller has a type outside the enumeration,
`PrepareService` returns the error of `ValidateTypes` and leaves the service as it is, although
`Lint` alone would have set the category of an instance. -/
theorem PrepareService_validates_then_lints_witness :
    (∃ err, unknownTypeService.ValidateTypes = some err ∧
      unknownTypeService.PrepareService =
        (unknownTypeService,
          some (GoError.wrap ("service.ValidateTypes: " ++ err.Error) err))) ∧
    unknownTypeService.Lint.1 ≠ unknownTypeService :=
  ⟨(PrepareService_validates_then_lints unknownTypeService).2.2.1
      (Or.inr ⟨⟨"Router", "source", [], []⟩, by decide, by decide⟩),
    by decide⟩

/-! ### Proxy preparation -/

/-- C11. For every proxy whose controller's `requiredDestination` is still `UnknownType`,
`Prepare` returns an error, with no call made (the trace is empty: the base service is not
prepared, the destination controller configuration is not prepared, no destination is
registered) and with the proxy unchanged. For any other required destination, the first call
of `Prepare` is the preparation of the base service. -/
theorem Prepare_without_destination_fails_first (base : proxy.Base) (p : proxy.Proxy) :
    (p.Controller.requiredDestination = service.UnknownType →
      proxy.Proxy.Prepare base p =
        ⟨p, [], some (GoError.new
          "missing the required destination. call proxy.ControllerCategory.RequireDestination")⟩) ∧
    (p.Controller.requiredDestination ≠ service.UnknownType →
      (proxy.Proxy.Prepare base p).trace.head? = some (proxy.Step.Prepare config.ProxyType)) := by
  refine ⟨?_, ?_⟩
  · intro h
    simp [proxy.Proxy.Prepare, h]
  · intro h
    unfold proxy.Proxy.Prepare
    simp only [beq_iff_eq, h, if_false]
    cases h1 : base.Prepare p._service config.ProxyType with
    | mk service1 err1 =>
        cases err1 with
        | some e => simp
        | none =>
            cases h2 : base.PrepareControllerConfiguration service1 proxy.DestinationName
                p.Controller.requiredDestination with
            | mk service2 err2 =>
                cases err2 with
                | some e => simp [h2]
                | none => simp [h2]

/-- On `unpreparedProxy`, `Prepare` fails with no call made and the proxy unchanged, although
the preparation of the base service would succeed. -/
theorem Prepare_without_destination_fails_first_witness :
    proxy.Proxy.Prepare sampleBase unpreparedProxy =
      ⟨unpreparedProxy, [], some (GoError.new
        "missing the required destination. call proxy.ControllerCategory.RequireDestination")⟩ ∧
    (proxy.Proxy.Prepare sampleBase requiringProxy).err = none :=
  ⟨(Prepare_without_destination_fails_first sampleBase unpreparedProxy).1 rfl, by decide⟩

/-! ### Bind addresses -/

theorem digitChar_value (k : Nat) (h : k < 10) : (Nat.digitChar k).toNat - 48 = k := by
  interval_cases k <;> rfl

theorem toDigitsCore_value (fuel : Nat) :
    ∀ (n : Nat) (ds : List Char), n < fuel →
      (Nat.toDigitsCore 10 fuel n ds).foldl (fun acc ch => 10 * acc + (ch.toNat - 48)) 0 =
        ds.foldl (fun acc ch => 10 * acc + (ch.toNat - 48)) n := by
  induction fuel with
  | zero => intro n ds h; exact absurd h (Nat.not_lt_zero n)
  | succ fuel ih =>
      intro n ds h
      have hd : (Nat.digitChar (n % 10)).toNat - 48 = n % 10 :=
        digitChar_value (n % 10) (Nat.mod_lt n (by decide))
      by_cases h0 : n / 10 = 0
      · have hn : n % 10 = n := Nat.mod_eq_of_lt (by omega)
        have hd1 : (Nat.digitChar n).toNat - 48 = n := by
          rw [hn] at hd
          exact hd
        simp [Nat.toDigitsCore, h0, hn, hd1]
      · have hlt : n / 10 < fuel := by omega
        have := ih (n / 10) (Nat.digitChar (n % 10) :: ds) hlt
        simp only [Nat.toDigitsCore, h0, if_false]
        rw [this]
        simp only [List.foldl_cons, hd]
        have hdm : 10 * (n / 10) + n % 10 = n := Nat.div_add_mod n 10
        rw [hdm]

theorem decimalValue_toString (n : Nat) : decimalValue (toString n) = n := by
  show decimalValue (Nat.repr n) = n
  unfold decimalValue Nat.repr Nat.toDigits
  simp only [List.asString]
  exact toDigitsCore_value (n + 1) n [] (Nat.lt_succ_self n)

theorem toString_injective (a b : Nat) (h : toString a = toString b) : a = b := by
  have := congrArg decimalValue h
  rwa [decimalValue_toString, decimalValue_toString] at this

theorem append_left_cancel (pre a b : String) (h : pre ++ a = pre ++ b) : a = b := by
  have hd := congrArg String.data h
  rw [String.data_append, String.data_append] at hd
  exact String.ext (List.append_cancel_left hd)

/-- C12. For every controller name and every port, `Url(name, port)` is `tcp://*:` followed by
the decimal representation of the port (the digit string `toString port`, whose decimal value
is the port) when the port is nonzero, and `inproc://` followed by the name when the port is
zero. Hence distinct nonzero ports give distinct bind addresses, whatever the names, and the
name is ignored for a nonzero port. -/
theorem Url_tcp_for_nonzero_port_inproc_for_zero (name : String) (port : Nat) :
    (port ≠ 0 → handler.Url name port = "tcp://*:" ++ toString port) ∧
    decimalValue (toString port) = port ∧
    (port = 0 → handler.Url name port = "inproc://" ++ name) ∧
    (∀ (name2 : String) (port2 : Nat), port ≠ 0 → port2 ≠ 0 → port ≠ port2 →
      handler.Url name port ≠ handler.Url name2 port2) ∧
    (∀ name2 : String, port ≠ 0 → handler.Url name port = handler.Url name2 port) := by
  have htcp : ∀ (n : String) (p : Nat), p ≠ 0 → handler.Url n p = "tcp://*:" ++ toString p := by
    intro n p hp
    simp [handler.Url, hp]
  refine ⟨htcp name port, decimalValue_toString port, ?_, ?_, ?_⟩
  · intro h0
    simp [handler.Url, h0]
  · intro name2 port2 hp hp2 hne heq
    rw [htcp name port hp, htcp name2 port2 hp2] at heq
    exact hne (toString_injective port port2 (append_left_cancel _ _ _ heq))
  · intro name2 hp
    rw [htcp name port hp, htcp name2 port hp]

/-- The addresses of port 9000, of port 0, and of two controllers on ports 9000 and 9001. -/
theorem Url_tcp_for_nonzero_port_inproc_for_zero_witness :
    handler.Url "main" 9000 = "tcp://*:9000" ∧
    handler.Url "main" 0 = "inproc://main" ∧
    handler.Url "main" 9000 ≠ handler.Url "main" 9001 :=
  ⟨(Url_tcp_for_nonzero_port_inproc_for_zero "main" 9000).1 (by decide),
    (Url_tcp_for_nonzero_port_inproc_for_zero "main" 0).2.2.1 rfl,
    (Url_tcp_for_nonzero_port_inproc_for_zero "main" 9000).2.2.2.1 "main" 9001
      (by decide) (by decide) (by decide)⟩

/-! ### The receive loop -/

theorem dispatch_of_no_route (c : controller.Controller) (request : Request)
    (hexact : c.routes.Exist request.Command = false) (hany : c.routes.Exist Any = false) :
    controller.dispatch c request =
      ⟨none, Fail ("route get " ++ request.Command ++ " failed: " ++
        ("handler not found for command: " ++ request.Command))⟩ := by
  simp [controller.dispatch, hexact, hany, GoError.Error]

/-- C13. For every replier controller whose route table contains neither the command of the
request nor the wildcard route, the dispatch step invokes no handler and produces a reply of
status `FAIL` whose message contains the command of the request; and the loop iteration that
receives such a request (with or without a public key) makes the receive call and sends that
reply, with no handler call in between. -/
theorem unknown_command_yields_fail_naming_command
    (c : controller.Controller) (request : Request)
    (hreply : c.isReply = true)
    (hexact : c.routes.Exist request.Command = false)
    (hany : c.routes.Exist Any = false) :
    (controller.dispatch c request).invoked = none ∧
    (controller.dispatch c request).reply.Status = FAIL ∧
    Contains (controller.dispatch c request).reply.Message request.Command ∧
    (∀ (w : World) (msgRaw : List String) (pubKey : Option String)
        (sendErr : Option GoError) (rest : List Inbound),
      w.ParseRequest msgRaw = Except.ok request →
      ∃ tail, (controller.loop c w (Inbound.message msgRaw pubKey sendErr :: rest)).1 =
        Effect.Recv :: Effect.Send (controller.dispatch c request).reply :: tail) := by
  have hd := dispatch_of_no_route c request hexact hany
  refine ⟨by rw [hd], by rw [hd]; rfl, ?_, ?_⟩
  · rw [hd]
    show Contains ("route get " ++ request.Command ++ " failed: " ++
      ("handler not found for command: " ++ request.Command)) request.Command
    apply contains_append_left
    apply contains_append_left
    exact contains_append_right _ _ _ (contains_self _)
  · intro w msgRaw pubKey sendErr rest hparse
    have hkey : ∀ key : String,
        controller.dispatch c (request.SetPublicKey key) = controller.dispatch c request := by
      intro key
      have h1 : (request.SetPublicKey key).Command = request.Command := rfl
      rw [dispatch_of_no_route c (request.SetPublicKey key) (by rw [h1]; exact hexact) hany,
        hd, h1]
    cases pubKey with
    | none =>
        cases sendErr with
        | none =>
            exact ⟨_, by
              simp [controller.loop, hparse, hd, controller.Controller.reply, hreply]; rfl⟩
        | some e =>
            exact ⟨_, by
              simp [controller.loop, hparse, hd, controller.Controller.reply, hreply]; rfl⟩
    | some key =>
        cases sendErr with
        | none =>
            exact ⟨_, by
              simp [controller.loop, hparse, hkey key, hd, controller.Controller.reply,
                hreply]; rfl⟩
        | some e =>
            exact ⟨_, by
              simp [controller.loop, hparse, hkey key, hd, controller.Controller.reply,
                hreply]; rfl⟩

/-- On `pingOnlyController`, the request `unknown` gets a `FAIL` reply whose message contains
`unknown`, and no handler is invoked. -/
theorem unknown_command_yields_fail_naming_command_witness :
    (controller.dispatch pingOnlyController ⟨"unknown", [], ""⟩).invoked = none ∧
    (controller.dispatch pingOnlyController ⟨"unknown", [], ""⟩).reply.Status = FAIL ∧
    Contains (controller.dispatch pingOnlyController ⟨"unknown", [], ""⟩).reply.Message
      "unknown" :=
  have h := unknown_command_yields_fail_naming_command pingOnlyController ⟨"unknown", [], ""⟩
    (by decide) (by decide) (by decide)
  ⟨h.1, h.2.1, h.2.2.1⟩

theorem reply_trace (c : controller.Controller) (message : Reply) (sendErr : Option GoError) :
    (c.reply message sendErr).1 = if c.isReply then [Effect.Send message] else [] := by
  unfold controller.Controller.reply
  cases c.isReply <;> cases sendErr <;> simp

theorem reply_of_send_ok (c : controller.Controller) (message : Reply) :
    (c.reply message none).2 = none := by
  unfold controller.Controller.reply
  cases c.isReply <;> simp

theorem loop_parse_error (c : controller.Controller) (w : World) (msgRaw : List String)
    (pubKey : Option String) (rest : List Inbound) (err : GoError)
    (hparse : w.ParseRequest msgRaw = Except.error err) :
    controller.loop c w (Inbound.message msgRaw pubKey none :: rest) =
      (Effect.Recv ::
          (if c.isReply then [Effect.Send (Fail ("message.ParseRequest: " ++ err.Error))]
            else []) ++ (controller.loop c w rest).1,
        (controller.loop c w rest).2) := by
  cases hr : c.isReply <;>
    simp [controller.loop, hparse, controller.Controller.replyError,
      controller.Controller.reply, hr, Errorf_w, GoError.Error]

theorem loop_recv_error (c : controller.Controller) (w : World) (err : GoError)
    (sendErr : Option GoError) (rest : List Inbound) :
    controller.loop c w (Inbound.recvError err sendErr :: rest) =
      (Effect.Recv ::
          (if c.isReply then
            [Effect.Send (Fail ("socket.recvMessageWithMetadata: " ++ err.Error))]
          else []),
        Outcome.returned
          (match (c.replyError (Errorf_w "socket.recvMessageWithMetadata: " err) sendErr).2 with
            | some err1 => err1
            | none => Errorf_w "socket.recvMessageWithMetadata: " err)) := by
  cases hr : c.isReply <;> cases sendErr <;>
    simp [controller.loop, controller.Controller.replyError,
      controller.Controller.reply, hr, Errorf_w, GoError.Error]

theorem run_outcome_of_loop (c : controller.Controller) (w : World)
    (inbound1 inbound2 : List Inbound)
    (h : ∀ c1 : controller.Controller,
      (controller.loop c1 w inbound1).2 = (controller.loop c1 w inbound2).2) :
    (controller.Run c w inbound1).outcome = (controller.Run c w inbound2).outcome := by
  unfold controller.Run
  cases c.extensionsAdded with
  | some err => rfl
  | none =>
      cases hinit : c.initExtensionClients w with
      | mk trace rest1 =>
          cases rest1 with
          | mk c1 initErr =>
              cases initErr with
              | some err => rfl
              | none =>
                  cases hconfig : c1.config with
                  | none => simp [hconfig]
                  | some config =>
                      cases hinst : config.Instances with
                      | nil => simp [hconfig, hinst]
                      | cons instance0 others =>
                          cases hbind : w.Bind (controller.controllerUrl instance0.Port) with
                          | some err => simp [hconfig, hinst, hbind]
                          | none => simp [hconfig, hinst, hbind, h c1]

theorem run_of_loop_eq (c : controller.Controller) (w : World)
    (inbound1 inbound2 : List Inbound)
    (h : ∀ c1 : controller.Controller,
      controller.loop c1 w inbound1 = controller.loop c1 w inbound2) :
    controller.Run c w inbound1 = controller.Run c w inbound2 := by
  unfold controller.Run
  cases c.extensionsAdded with
  | some err => rfl
  | none =>
      cases hinit : c.initExtensionClients w with
      | mk trace rest1 =>
          cases rest1 with
          | mk c1 initErr =>
              cases initErr with
              | some err => rfl
              | none =>
                  cases hconfig : c1.config with
                  | none => simp [hconfig]
                  | some config =>
                      cases hinst : config.Instances with
                      | nil => simp [hconfig, hinst]
                      | cons instance0 others =>
                          cases hbind : w.Bind (controller.controllerUrl instance0.Port) with
                          | some err => simp [hconfig, hinst, hbind]
                          | none => simp [hconfig, hinst, hbind, h c1]

theorem run_outcome_ne_blocked (c : controller.Controller) (w : World)
    (inbound : List Inbound)
    (h : ∀ c1 : controller.Controller, (controller.loop c1 w inbound).2 ≠ Outcome.blocked) :
    (controller.Run c w inbound).outcome ≠ Outcome.blocked := by
  unfold controller.Run
  cases c.extensionsAdded with
  | some err => simp
  | none =>
      cases hinit : c.initExtensionClients w with
      | mk trace rest1 =>
          cases rest1 with
          | mk c1 initErr =>
              cases initErr with
              | some err => simp
              | none =>
                  cases hconfig : c1.config with
                  | none => simp [hconfig]
                  | some config =>
                      cases hinst : config.Instances with
                      | nil => simp [hconfig, hinst]
                      | cons instance0 others =>
                          cases hbind : w.Bind (controller.controllerUrl instance0.Port) with
                          | some err => simp [hconfig, hinst, hbind]
                          | none =>
                              simp only [hconfig, hinst, hbind]
                              exact h c1

/-- C15. In the loop of `Run`, over the results of the successive receive calls, for every
controller and every outcome of the outside calls. A received message that fails to parse,
when the send succeeds, makes the controller send a `FAIL` reply (a replier; any other type
sends nothing), invoke no handler and go on with the next result: the loop, and `Run`, end as
they do on the remaining results. On a replier whose send fails, the loop returns an error
instead. A receive error makes the controller attempt one error reply and return an error
(the wrapped receive error when the reply is sent), whatever results would follow: none of
them is processed. -/
theorem parse_failure_continues_receive_error_returns (c : controller.Controller) (w : World) :
    (∀ (msgRaw : List String) (pubKey : Option String) (rest : List Inbound) (err : GoError),
      w.ParseRequest msgRaw = Except.error err →
      controller.loop c w (Inbound.message msgRaw pubKey none :: rest) =
        (Effect.Recv ::
            (if c.isReply then [Effect.Send (Fail ("message.ParseRequest: " ++ err.Error))]
              else []) ++ (controller.loop c w rest).1,
          (controller.loop c w rest).2) ∧
      (controller.Run c w (Inbound.message msgRaw pubKey none :: rest)).outcome =
        (controller.Run c w rest).outcome) ∧
    (∀ (msgRaw : List String) (pubKey : Option String) (rest : List Inbound)
        (err sendErr : GoError),
      w.ParseRequest msgRaw = Except.error err → c.isReply = true →
      ∃ err1, controller.loop c w (Inbound.message msgRaw pubKey (some sendErr) :: rest) =
        ([Effect.Recv, Effect.Send (Fail ("message.ParseRequest: " ++ err.Error))],
          Outcome.returned err1)) ∧
    (∀ (err : GoError) (sendErr : Option GoError) (rest : List Inbound),
      (∃ err1, controller.loop c w (Inbound.recvError err sendErr :: rest) =
          (Effect.Recv ::
              (if c.isReply then
                [Effect.Send (Fail ("socket.recvMessageWithMetadata: " ++ err.Error))]
              else []),
            Outcome.returned err1) ∧
          (sendErr = none →
            err1 = GoError.wrap ("socket.recvMessageWithMetadata: " ++ err.Error) err)) ∧
      controller.Run c w (Inbound.recvError err sendErr :: rest) =
        controller.Run c w [Inbound.recvError err sendErr] ∧
      (controller.Run c w (Inbound.recvError err sendErr :: rest)).outcome ≠
        Outcome.blocked) := by
  refine ⟨?_, ?_, ?_⟩
  · intro msgRaw pubKey rest err hparse
    refine ⟨loop_parse_error c w msgRaw pubKey rest err hparse, ?_⟩
    apply run_outcome_of_loop
    intro c1
    rw [loop_parse_error c1 w msgRaw pubKey rest err hparse]
  · intro msgRaw pubKey rest err sendErr hparse hreply
    exact ⟨_, by
      simp [controller.loop, hparse, controller.Controller.replyError,
        controller.Controller.reply, hreply, Errorf_w, GoError.Error]; rfl⟩
  · intro err sendErr rest
    refine ⟨⟨_, loop_recv_error c w err sendErr rest, ?_⟩, ?_, ?_⟩
    · intro hsend
      rw [hsend]
      simp [controller.Controller.replyError, reply_of_send_ok, Errorf_w]
    · apply run_of_loop_eq
      intro c1
      rw [loop_recv_error c1 w err sendErr rest, loop_recv_error c1 w err sendErr []]
    · apply run_outcome_ne_blocked
      intro c1
      rw [loop_recv_error c1 w err sendErr rest]
      simp

/-- On `pingOnlyController`: a message that fails to parse is answered with `FAIL` and the
next message is handled; a receive error ends `Run`, and the message after it is not
processed. -/
theorem parse_failure_continues_receive_error_returns_witness :
    (controller.Run pingOnlyController sampleWorld
        [Inbound.message [] none none, Inbound.message ["ping"] none none]).outcome =
      (controller.Run pingOnlyController sampleWorld
        [Inbound.message ["ping"] none none]).outcome ∧
    controller.Run pingOnlyController sampleWorld
        [Inbound.recvError (GoError.new "closed") none, Inbound.message ["ping"] none none] =
      controller.Run pingOnlyController sampleWorld
        [Inbound.recvError (GoError.new "closed") none] ∧
    controller.Run pingOnlyController sampleWorld
        [Inbound.message [] none none, Inbound.message ["ping"] none none,
          Inbound.recvError (GoError.new "closed") none, Inbound.message ["ping"] none none] =
      ⟨[Effect.Warn "config.Instances[0] is hardcoded. Create multiple instances",
          Effect.Warn "todo",
          Effect.Bind "tcp://*:9000",
          Effect.Recv,
          Effect.Send (Fail "message.ParseRequest: invalid message"),
          Effect.Recv,
          Effect.Handle "ping" ⟨"ping", [], ""⟩,
          Effect.Send ⟨OK, "", [("pong", Value.bool true)]⟩,
          Effect.Recv,
          Effect.Send (Fail "socket.recvMessageWithMetadata: closed")],
        Outcome.returned
          (GoError.wrap "socket.recvMessageWithMetadata: closed" (GoError.new "closed"))⟩ :=
  ⟨((parse_failure_continues_receive_error_returns pingOnlyController sampleWorld).1
      [] none [Inbound.message ["ping"] none none] (GoError.new "invalid message") rfl).2,
    ((parse_failure_continues_receive_error_returns pingOnlyController sampleWorld).2.2
      (GoError.new "closed") none [Inbound.message ["ping"] none none]).2.1,
    by decide⟩

theorem sends_append (t1 t2 : List Effect) : sends (t1 ++ t2) = sends t1 + sends t2 := by
  simp [sends, List.countP_append]

theorem sends_recv (t : List Effect) : sends (Effect.Recv :: t) = sends t := by
  simp [sends]

theorem sends_send (reply : Reply) (t : List Effect) :
    sends (Effect.Send reply :: t) = sends t + 1 := by
  simp [sends]

theorem sends_handle (command : String) (request : Request) (t : List Effect) :
    sends (Effect.Handle command request :: t) = sends t := by
  simp [sends]

theorem sends_warn (msg : String) (t : List Effect) : sends (Effect.Warn msg :: t) = sends t := by
  simp [sends]

theorem sends_nil : sends [] = 0 := rfl

theorem loop_message_sends (c : controller.Controller) (w : World) (msgRaw : List String)
    (pubKey : Option String) (sendErr : Option GoError) (rest : List Inbound) :
    sends (controller.loop c w (Inbound.message msgRaw pubKey sendErr :: rest)).1 =
      (if c.isReply then 1 else 0) +
        (if c.isReply && sendErr.isSome then 0 else sends (controller.loop c w rest).1) := by
  cases hp : w.ParseRequest msgRaw with
  | error err =>
      cases hr : c.isReply <;> cases sendErr <;>
        simp [controller.loop, hp, hr, controller.Controller.replyError,
          controller.Controller.reply, sends_append, sends_recv, sends_send, sends_nil]
      all_goals omega
  | ok parsed =>
      simp only [controller.loop, hp]
      generalize controller.dispatch c _ = d
      cases hinv : d.invoked <;> cases hok : d.reply.IsOK <;> cases hr : c.isReply <;>
        cases sendErr <;>
        simp [controller.Controller.reply, hr, hok, sends_append, sends_recv, sends_send,
          sends_handle, sends_warn, sends_nil] <;>
        omega

theorem loop_sends_of_not_reply (c : controller.Controller) (w : World)
    (hr : c.isReply = false) (inbound : List Inbound) :
    sends (controller.loop c w inbound).1 = 0 := by
  induction inbound with
  | nil => simp [controller.loop, sends]
  | cons first rest ih =>
      cases first with
      | recvError err sendErr =>
          rw [loop_recv_error c w err sendErr rest]
          simp [hr, sends]
      | message msgRaw pubKey sendErr =>
          rw [loop_message_sends c w msgRaw pubKey sendErr rest]
          simp [hr, ih]

/-- C16. For every message delivered by the receive call in an iteration of the loop of a
controller (whether it fails to parse, has no route, or is handled by a route, and whatever
the outcome of the send), a replier makes exactly one `socket.SendMessage` call and a
controller of any other type makes none: when the send succeeds the loop goes on and the sends
of the remaining iterations are counted apart. A controller that is not a replier sends
nothing over any sequence of receive results, and its `reply` (in package `controller` and in
package `handler`) returns success with no call made, for every reply value; the `reply` of a
replier makes exactly the one send of the given reply. -/
theorem replier_sends_one_reply_per_message
    (c : controller.Controller) (h : handler.Controller) (w : World) :
    (∀ (msgRaw : List String) (pubKey : Option String) (sendErr : Option GoError),
      sends (controller.loop c w [Inbound.message msgRaw pubKey sendErr]).1 =
        if c.isReply then 1 else 0) ∧
    (∀ (msgRaw : List String) (pubKey : Option String) (rest : List Inbound),
      sends (controller.loop c w (Inbound.message msgRaw pubKey none :: rest)).1 =
        (if c.isReply then 1 else 0) + sends (controller.loop c w rest).1) ∧
    (c.isReply = false → ∀ inbound : List Inbound, sends (controller.loop c w inbound).1 = 0) ∧
    (c.isReply = false → ∀ (message : Reply) (sendErr : Option GoError),
      c.reply message sendErr = ([], none)) ∧
    (c.isReply = true → ∀ (message : Reply) (sendErr : Option GoError),
      (c.reply message sendErr).1 = [Effect.Send message]) ∧
    (h.isReply = false → ∀ (message : Reply) (sendErr : Option GoError),
      h.reply message sendErr = ([], none)) ∧
    (h.isReply = true → ∀ (message : Reply) (sendErr : Option GoError),
      (h.reply message sendErr).1 = [Effect.Send message]) := by
  refine ⟨?_, ?_, ?_, ?_, ?_, ?_, ?_⟩
  · intro msgRaw pubKey sendErr
    rw [loop_message_sends c w msgRaw pubKey sendErr []]
    cases c.isReply <;> cases sendErr <;> simp [controller.loop, sends]
  · intro msgRaw pubKey rest
    rw [loop_message_sends c w msgRaw pubKey none rest]
    simp
  · intro hr inbound
    exact loop_sends_of_not_reply c w hr inbound
  · intro hr message sendErr
    simp [controller.Controller.reply, hr]
  · intro hr message sendErr
    cases sendErr <;> simp [controller.Controller.reply, hr]
  · intro hr message sendErr
    simp [handler.Controller.reply, hr]
  · intro hr message sendErr
    cases sendErr <;> simp [handler.Controller.reply, hr]

/-- On `pingOnlyController`, a replier, each of a handled message, a message without route and
a message that fails to parse is answered by one send; on `pullController` none is. -/
theorem replier_sends_one_reply_per_message_witness :
    sends (controller.loop pingOnlyController sampleWorld
      [Inbound.message ["ping"] none none]).1 = 1 ∧
    sends (controller.loop pingOnlyController sampleWorld
      [Inbound.message ["unknown"] none none]).1 = 1 ∧
    sends (controller.loop pingOnlyController sampleWorld
      [Inbound.message [] none none]).1 = 1 ∧
    sends (controller.loop pullController sampleWorld
      [Inbound.message ["ping"] none none, Inbound.message [] none none]).1 = 0 :=
  ⟨by rw [(replier_sends_one_reply_per_message pingOnlyController freshHandler sampleWorld).1]
      decide,
    by rw [(replier_sends_one_reply_per_message pingOnlyController freshHandler sampleWorld).1]
       decide,
    by rw [(replier_sends_one_reply_per_message pingOnlyController freshHandler sampleWorld).1]
       decide,
    (replier_sends_one_reply_per_message pullController freshHandler sampleWorld).2.2.1
      (by decide) _⟩

/-! ### The wildcard route of a proxy source -/

/-- C14, as stated, fails: the handler that `AnyRoute` installs does not relay the request.
For the request `double` with `n` set to 21 it replies `OK` with the command of the request as
its only parameter, which is not the reply `OK` with `n` set to 42 of a destination that
doubles `n`; and its reply is the same whatever extension clients it is given. -/
theorem anyHandler_does_not_forward :
    handler.anyHandler doubleRequest proxyClients = ⟨OK, "", [("command", Value.str "double")]⟩ ∧
    handler.anyHandler doubleRequest proxyClients ≠ ⟨OK, "", [("n", Value.uint 42)]⟩ ∧
    handler.anyHandler doubleRequest [] = handler.anyHandler doubleRequest proxyClients := by
  decide

/-- C14, amended. The wildcard route that `AnyRoute` installs on a source controller calls no
extension client: for every request and every set of extension clients, its handler returns
the reply `OK` whose only parameter is the command of the request under the key `command`,
so the reply depends on neither the parameters of the request nor the clients. `AnyRoute`
returns no error, and on a controller without a wildcard route the route then looked up for
the wildcard command is the one with that handler. -/
theorem AnyRoute_installs_command_echo (c : handler.Controller) :
    (∀ (request : Request) (clients : Clients),
      handler.anyHandler request clients =
        ⟨OK, "", [("command", Value.str request.Command)]⟩) ∧
    (∀ (request1 request2 : Request) (clients1 clients2 : Clients),
      request1.Command = request2.Command →
      handler.anyHandler request1 clients1 = handler.anyHandler request2 clients2) ∧
    (handler.AnyRoute c).2 = none ∧
    (c.routes.Exist Any = false →
      (handler.AnyRoute c).1.routes.Get Any = Except.ok ⟨Any, handler.anyHandler⟩) := by
  have hany : ∀ (request : Request) (clients : Clients),
      handler.anyHandler request clients =
        ⟨OK, "", [("command", Value.str request.Command)]⟩ := by
    intro request clients
    rfl
  refine ⟨hany, ?_, ?_, ?_⟩
  · intro request1 request2 clients1 clients2 hcmd
    rw [hany, hany, hcmd]
  · rcases handler_addRoute_spec c (handler.NewRoute Any handler.anyHandler) with
      ⟨_, hadd⟩ | ⟨_, routes1, hadd, _, _⟩ <;>
      simp [handler.AnyRoute, hadd]
  · intro hfresh
    rcases handler_addRoute_spec c (handler.NewRoute Any handler.anyHandler) with
      ⟨hex, _⟩ | ⟨_, routes1, hadd, _, hget⟩
    · have hex1 : c.routes.Exist Any = true := hex
      rw [hfresh] at hex1
      exact absurd hex1 (by decide)
    · have hget1 : routes1.Get Any = Except.ok ⟨Any, handler.anyHandler⟩ := hget
      simp [handler.AnyRoute, hadd, hget1]

/-- On `freshHandler`, `AnyRoute` installs the wildcard route, and its handler answers the
request `double` with the command of the request. -/
theorem AnyRoute_installs_command_echo_witness :
    (handler.AnyRoute freshHandler).2 = none ∧
    (handler.AnyRoute freshHandler).1.routes.Get Any = Except.ok ⟨Any, handler.anyHandler⟩ ∧
    handler.anyHandler doubleRequest proxyClients =
      ⟨OK, "", [("command", Value.str doubleRequest.Command)]⟩ :=
  have h := AnyRoute_installs_command_echo freshHandler
  ⟨h.2.2.1, h.2.2.2 (by decide), h.1 doubleRequest proxyClients⟩

/-! ### Lint is idempotent -/

theorem propagated_idem (c : service.Controller) : propagated (propagated c) = propagated c := by
  simp [propagated, List.map_map, Function.comp_def]

theorem propagated_no_conflict (c : service.Controller) :
    ∀ inst ∈ (propagated c).Instances, ¬ Conflicts (propagated c) inst := by
  intro inst hinst hconflict
  simp only [propagated, List.mem_map] at hinst
  obtain ⟨inst0, _, hinst0⟩ := hinst
  apply hconflict.2
  rw [← hinst0]
  rfl

theorem Lint_of_success (s : config.Service) (h : s.Lint.2 = none) :
    s.Lint = ({ s with Controllers := s.Controllers.map propagated }, none) := by
  rcases LintControllers_spec s.Id s.Controllers with ⟨_, hlint⟩ |
    ⟨cbefore, c, cafter, before, inst, after, _, _, _, _, _, hlint⟩
  · simp [config.Service.Lint, hlint]
  · simp [config.Service.Lint, hlint] at h

theorem Lint_of_propagated (s : config.Service) :
    config.Service.Lint { s with Controllers := s.Controllers.map propagated } =
      ({ s with Controllers := s.Controllers.map propagated }, none) := by
  rcases LintControllers_spec s.Id (s.Controllers.map propagated) with ⟨_, hlint⟩ |
    ⟨cbefore, c, cafter, before, inst, after, hcsplit, hsplit, _, _, hbad, _⟩
  · have hmap : (s.Controllers.map propagated).map propagated = s.Controllers.map propagated := by
      simp [List.map_map, Function.comp_def, propagated_idem]
    simp [config.Service.Lint, hlint, hmap]
  · exfalso
    have hmem : c ∈ s.Controllers.map propagated := by simp [hcsplit]
    rw [List.mem_map] at hmem
    obtain ⟨c0, _, hc0⟩ := hmem
    rw [← hc0] at hsplit hbad
    exact propagated_no_conflict c0 inst (by simp [hsplit]) hbad

theorem ValidateTypes_propagated (s : config.Service) :
    config.Service.ValidateTypes { s with Controllers := s.Controllers.map propagated } =
      s.ValidateTypes := by
  have hcs : config.Service.ValidateControllerTypes (s.Controllers.map propagated) =
      config.Service.ValidateControllerTypes s.Controllers := by
    induction s.Controllers with
    | nil => rfl
    | cons c rest ih =>
        have ht : (propagated c).Type_ = c.Type_ := rfl
        simp only [List.map_cons, config.Service.ValidateControllerTypes, ht, ih]
  simp only [config.Service.ValidateTypes, hcs]

/-- C17. `Lint` is idempotent: for every service on which `Lint` succeeds, running `Lint` on
the resulting service succeeds too and leaves it exactly as it is. The same holds for
`PrepareService`, which runs at unmarshalling and again at service preparation: after a
successful run, a second run succeeds and changes nothing. -/
theorem Lint_twice_is_noop (s : config.Service) :
    (s.Lint.2 = none → s.Lint.1.Lint = (s.Lint.1, none)) ∧
    (s.PrepareService.2 = none →
      s.PrepareService.1.PrepareService = (s.PrepareService.1, none)) := by
  refine ⟨?_, ?_⟩
  · intro h
    rw [Lint_of_success s h]
    exact Lint_of_propagated s
  · intro h
    cases hv : s.ValidateTypes with
    | some err => simp [config.Service.PrepareService, hv] at h
    | none =>
        have hl : s.Lint.2 = none := by
          cases hlint : s.Lint with
          | mk s1 lintErr =>
              cases lintErr with
              | none => rfl
              | some err => simp [config.Service.PrepareService, hv, hlint] at h
        have hprep : s.PrepareService =
            ({ s with Controllers := s.Controllers.map propagated }, none) := by
          simp [config.Service.PrepareService, hv, Lint_of_success s hl]
        rw [hprep]
        simp only [config.Service.PrepareService, ValidateTypes_propagated s, hv,
          Lint_of_propagated s]

/-- On `plainService`, `Lint` succeeds and a second `Lint` changes nothing. -/
theorem Lint_twice_is_noop_witness :
    plainService.Lint.2 = none ∧ plainService.Lint.1.Lint = (plainService.Lint.1, none) ∧
    plainService.Lint.1 ≠ plainService :=
  ⟨by decide, (Lint_twice_is_noop plainService).1 (by decide), by decide⟩

/-! ### Snapshot -/

theorem block_timestamp_to_loop_eq (logs : List categorizer.Log) :
    ∀ block_timestamp_to : Nat,
      categorizer.block_timestamp_to_loop block_timestamp_to logs =
        maxTimestamp block_timestamp_to logs := by
  induction logs with
  | nil => intro t; rfl
  | cons log rest ih =>
      intro t
      by_cases h : log.BlockTimestamp > t
      · have hmax : max t log.BlockTimestamp = log.BlockTimestamp := Nat.max_eq_right (by omega)
        simp [categorizer.block_timestamp_to_loop, h, ih, maxTimestamp, hmax]
      · have hmax : max t log.BlockTimestamp = t := Nat.max_eq_left (by omega)
        simp [categorizer.block_timestamp_to_loop, h, ih, maxTimestamp, hmax]

theorem maxTimestamp_spec (logs : List categorizer.Log) :
    ∀ t : Nat,
      t ≤ maxTimestamp t logs ∧
      (∀ log ∈ logs, log.BlockTimestamp ≤ maxTimestamp t logs) ∧
      (maxTimestamp t logs = t ∨ ∃ log ∈ logs, log.BlockTimestamp = maxTimestamp t logs) := by
  induction logs with
  | nil => intro t; simp [maxTimestamp]
  | cons log rest ih =>
      intro t
      have hcons : maxTimestamp t (log :: rest) = maxTimestamp (max t log.BlockTimestamp) rest := by
        simp [maxTimestamp]
      obtain ⟨h1, h2, h3⟩ := ih (max t log.BlockTimestamp)
      rw [hcons]
      refine ⟨le_trans (Nat.le_max_left _ _) h1, ?_, ?_⟩
      · intro l hl
        rcases List.mem_cons.mp hl with h | h
        · rw [h]
          exact le_trans (Nat.le_max_right _ _) h1
        · exact h2 l h
      · rcases h3 with h | ⟨l, hl, hts⟩
        · rcases Nat.le_total t log.BlockTimestamp with hle | hle
          · right
            exact ⟨log, by simp, by rw [h, Nat.max_eq_right hle]⟩
          · left
            rw [h, Nat.max_eq_left hle]
        · right
          exact ⟨l, List.mem_cons_of_mem _ hl, hts⟩

/-- C18. For every successful `GetSnapshot` call (the parameters `block_timestamp_from` and
`topic_filter` are present, the database returns at least one matching smartcontract, and
the log query returns without error), the reply has status `OK`, carries the returned logs,
and its `block_timestamp` is the maximum of the requested `block_timestamp_from` and the
`BlockTimestamp` of every returned log: it is never smaller than `block_timestamp_from`, it is
at least the timestamp of every returned log, it is `block_timestamp_from` or the timestamp of
one of the logs, and it equals `block_timestamp_from` when the log list is empty. -/
theorem GetSnapshot_block_timestamp_is_max (lib : categorizer.Library)
    (db_con : categorizer.Database) (request : categorizer.Request)
    (block_timestamp_from : Nat) (topic_filter_map : KeyValue Value)
    (smartcontracts : List categorizer.Smartcontract) (logs : List categorizer.Log)
    (hfrom : lib.GetUint64 request.Parameters "block_timestamp_from" =
      Except.ok block_timestamp_from)
    (hfilter : lib.GetKeyValue request.Parameters "topic_filter" = Except.ok topic_filter_map)
    (hsmartcontracts : lib.GetFromDatabaseFilterBy db_con
      (lib.QueryFilterSmartcontract (lib.ParseJSONToTopicFilter topic_filter_map)).1
      (lib.QueryFilterSmartcontract (lib.ParseJSONToTopicFilter topic_filter_map)).2 =
        Except.ok smartcontracts)
    (hmatching : smartcontracts ≠ [])
    (hlogs : lib.GetLogsFromDb db_con smartcontracts block_timestamp_from
      categorizer.SNAPSHOT_LIMIT = Except.ok logs) :
    categorizer.GetSnapshot lib db_con request =
      ⟨"OK", "",
        [("logs", categorizer.Parameter.mapList logs),
         ("block_timestamp",
            categorizer.Parameter.uint64 (maxTimestamp block_timestamp_from logs))]⟩ ∧
    block_timestamp_from ≤ maxTimestamp block_timestamp_from logs ∧
    (∀ log ∈ logs, log.BlockTimestamp ≤ maxTimestamp block_timestamp_from logs) ∧
    (maxTimestamp block_timestamp_from logs = block_timestamp_from ∨
      ∃ log ∈ logs, log.BlockTimestamp = maxTimestamp block_timestamp_from logs) ∧
    (logs = [] → maxTimestamp block_timestamp_from logs = block_timestamp_from) := by
  obtain ⟨h1, h2, h3⟩ := maxTimestamp_spec logs block_timestamp_from
  refine ⟨?_, h1, h2, h3, ?_⟩
  · have hlen : smartcontracts.length ≠ 0 := by
      intro h0
      exact hmatching (List.length_eq_zero.mp h0)
    simp [categorizer.GetSnapshot, hfrom, hfilter, hsmartcontracts, hlen, hlogs,
      block_timestamp_to_loop_eq]
  · intro hnil
    rw [hnil]
    rfl

/-- On `sampleLibrary`: a snapshot from the timestamp 22 returns the logs of timestamps 30 and
25 and the block timestamp 30; a snapshot from the timestamp 40 returns no log and the block
timestamp 40. -/
theorem GetSnapshot_block_timestamp_is_max_witness :
    categorizer.GetSnapshot sampleLibrary ⟨"db"⟩ snapshotRequest =
      ⟨"OK", "",
        [("logs", categorizer.Parameter.mapList [⟨30, []⟩, ⟨25, []⟩]),
         ("block_timestamp",
            categorizer.Parameter.uint64 (maxTimestamp 22 [⟨30, []⟩, ⟨25, []⟩]))]⟩ ∧
    maxTimestamp 22 [⟨30, []⟩, ⟨25, []⟩] = 30 ∧
    categorizer.GetSnapshot sampleLibrary ⟨"db"⟩ lateSnapshotRequest =
      ⟨"OK", "",
        [("logs", categorizer.Parameter.mapList []),
         ("block_timestamp", categorizer.Parameter.uint64 (maxTimestamp 40 []))]⟩ :=
  ⟨(GetSnapshot_block_timestamp_is_max sampleLibrary ⟨"db"⟩ snapshotRequest 22
      [("n", Value.str "1")] [⟨[]⟩] [⟨30, []⟩, ⟨25, []⟩] rfl rfl rfl (by decide) rfl).1,
    by decide,
    (GetSnapshot_block_timestamp_is_max sampleLibrary ⟨"db"⟩ lateSnapshotRequest 40
      [("n", Value.str "1")] [⟨[]⟩] [] rfl rfl rfl (by decide) rfl).1⟩

end ExtLib
